import Mathlib

/-
Verification development for the cross-jurisdiction regulation rule engine.

This file gives a shallow embedding, in Lean 4, of the deterministic core of
the repository:

* `backend/verification/cross_rule.py` — the Tier-4 cross-rule checker
  (contradiction detection, temporal interval overlap);
* `backend/verification/embeddings.py` — the heuristic-mode similarity scorer
  (TF-IDF cosine + character n-gram Jaccard + token Jaccard);
* `backend/verification/nli.py` — the heuristic NLI classifier and the
  multi-hypothesis aggregation;
* `backend/workflows/workflows.py` and `backend/workflows/activities.py` —
  the RuleVerification tier loop (fail-fast and skip-tier semantics), the
  counterfactual activities, and the drift-detection sweep.

Modelling conventions:

* Python floats are modelled as exact rationals (`ℚ`); the TF-IDF cosine,
  which uses `math.sqrt`/`math.log`, is modelled over `ℝ` with `Real.sqrt`
  and `Real.log` (real-number semantics of the numeric code).
* Dates are encoded as naturals `yyyy*10000 + mm*100 + dd`; this encoding is
  strictly monotone in calendar order, so `max`/`min`/`≤` agree with
  `datetime.date` comparisons.  The sentinels `date(1900,1,1)` and
  `date(2999,12,31)` become `19000101` and `29991231`.
* Wall-clock fields (`timestamp`, `duration_ms`, `started_at`, ...) are
  real-time observations and are omitted from the records.
* Python regex tokenisation with ASCII classes is modelled on `List Char`
  (`\w` = alphanumeric or underscore, `\b` = word/non-word boundary);
  `str.lower` is modelled by `Char.toLower` (ASCII case mapping).
* External collaborators (the rule store lookup, the decision engine
  `DecisionEngine.evaluate`, the per-tier activity results) are parameters
  of the workflow functions: the workflows are modelled as pure functions of
  those activity outcomes, which is exactly the determinism contract of the
  orchestration runtime.
-/

/-! ### Cross-rule checker data model (`backend/verification/cross_rule.py`) -/

/-- A rule applicability condition: either a leaf `(field, operator, value)`
`ConditionSpec` or a `ConditionGroupSpec` combining children under `all`
(conjunction) and `any` (disjunction). -/
inductive Condition where
  | spec (field : String) (operator : String) (value : String)
  | group (all : List Condition) (any : List Condition)

/-- A decision tree node: a `DecisionLeaf` carrying a `result` string, or a
`DecisionNode` carrying a condition and optional true/false branches. -/
inductive DecisionTree where
  | leaf (result : String)
  | node (condition : Condition) (true_branch : Option DecisionTree)
      (false_branch : Option DecisionTree)

/-- The slice of the external `Rule` record consumed by the cross-rule
checker: identity, the `applies_if` condition tree, the decision tree and the
validity window.  Dates are `yyyymmdd` naturals. -/
structure Rule where
  rule_id : String
  description : String
  interpretation_notes : String
  applies_if : Option Condition
  decision_tree : Option DecisionTree
  effective_from : Option ℕ
  effective_to : Option ℕ

/-- One check's output record (`ConsistencyEvidence`), without the wall-clock
timestamp. -/
structure ConsistencyEvidence where
  tier : ℕ
  category : String
  label : String
  score : ℚ
  details : String
  rule_element : Option String
deriving DecidableEq

/-- `CrossRuleChecker.CONTRADICTING_OUTCOMES`: the fixed symmetric table of
contradicting outcome word-pairs. -/
def CONTRADICTING_OUTCOMES : List (String × String) :=
  [("permitted", "prohibited"),
   ("required", "forbidden"),
   ("authorized", "denied"),
   ("compliant", "non_compliant"),
   ("exempt", "subject_to"),
   ("allowed", "forbidden"),
   ("mandatory", "optional")]

/-- `CrossRuleChecker.MIN_DATE` (`date(1900, 1, 1)`). -/
def MIN_DATE : ℕ := 19000101

/-- `CrossRuleChecker.MAX_DATE` (`date(2999, 12, 31)`). -/
def MAX_DATE : ℕ := 29991231

/-- `CrossRuleChecker._are_contradicting`: membership of the pair in the
table, checked in both orderings. -/
def areContradicting (o1 o2 : String) : Bool :=
  CONTRADICTING_OUTCOMES.contains (o1, o2) || CONTRADICTING_OUTCOMES.contains (o2, o1)

/-- Python `str.strip()` on a character list: whitespace removed from both
ends. -/
def pyStrip (cs : List Char) : List Char :=
  ((cs.dropWhile Char.isWhitespace).reverse.dropWhile Char.isWhitespace).reverse

/-- Python `result.lower().strip()` (ASCII case mapping). -/
def lowerStrip (s : String) : String :=
  String.mk (pyStrip (s.data.map Char.toLower))

/-- `CrossRuleChecker._extract_outcomes`'s tree traversal: collect
lowercased, trimmed leaf `result` strings (empty results are dropped);
absent branches are skipped. -/
def extractOutcomes : DecisionTree → List String
  | .leaf r => if r = "" then [] else [lowerStrip r]
  | .node _ none none => []
  | .node _ (some tb) none => extractOutcomes tb
  | .node _ none (some fb) => extractOutcomes fb
  | .node _ (some tb) (some fb) => extractOutcomes tb ++ extractOutcomes fb

/-- `CrossRuleChecker._extract_outcomes` on a rule (empty when the rule has
no decision tree). -/
def outcomesOf (r : Rule) : List String :=
  match r.decision_tree with
  | none => []
  | some t => extractOutcomes t

/-- The nested outcome-pair scan shared by the contradiction, hierarchy and
temporal checks: some outcome of `r1` contradicts some outcome of `r2`. -/
def hasContradictingOutcomes (r1 r2 : Rule) : Bool :=
  (outcomesOf r1).any (fun p => (outcomesOf r2).any (fun o => areContradicting p o))

mutual
/-- `CrossRuleChecker._extract_condition_fields`: all non-empty field names
referenced by a condition tree, as a set. -/
def extractConditionFields : Condition → Finset String
  | .spec f _ _ => if f = "" then ∅ else {f}
  | .group allC anyC => extractFieldsList allC ∪ extractFieldsList anyC

/-- Field collection over a list of child conditions. -/
def extractFieldsList : List Condition → Finset String
  | [] => ∅
  | c :: cs => extractConditionFields c ∪ extractFieldsList cs
end

/-- `CrossRuleChecker._conditions_overlap`: a null `applies_if` on either
side applies broadly (overlap); otherwise only non-empty, disjoint field
sets are ruled non-overlapping. -/
def conditionsOverlap (r1 r2 : Rule) : Bool :=
  match r1.applies_if, r2.applies_if with
  | some c1, some c2 =>
      let f1 := extractConditionFields c1
      let f2 := extractConditionFields c2
      if f1 ≠ ∅ ∧ f2 ≠ ∅ ∧ f1 ∩ f2 = ∅ then false else true
  | _, _ => true

/-- One element of `ContradictionResult.contradiction_pairs`. -/
structure ContradictionPair where
  rule1_id : String
  rule1_outcome : String
  rule2_id : String
  rule2_outcome : String
  conditions_overlap : Bool
deriving DecidableEq

/-- The contradiction-pair collection loop of
`CrossRuleChecker.check_contradiction`: for every other rule (self excluded
by `rule_id`), every outcome pair in the contradiction table yields an entry
tagged with the condition-overlap flag. -/
def contradictionEntries (rule : Rule) (related : List Rule) : List ContradictionPair :=
  related.flatMap (fun other =>
    if other.rule_id = rule.rule_id then []
    else
      (outcomesOf rule).flatMap (fun p =>
        (outcomesOf other).filterMap (fun o =>
          if areContradicting p o then
            some ⟨rule.rule_id, p, other.rule_id, o, conditionsOverlap rule other⟩
          else none)))

/-- The in-order deduplicated `contradicting_rule_ids` accumulator. -/
def collectContradictingIds (entries : List ContradictionPair) : List String :=
  entries.foldl (fun acc e => if e.rule2_id ∈ acc then acc else acc ++ [e.rule2_id]) []

/-- `CrossRuleChecker.check_contradiction`: severity/label/score selection
over the collected contradiction pairs. -/
def check_contradiction (rule : Rule) (related_rules : List Rule) : ConsistencyEvidence :=
  if related_rules.isEmpty then
    { tier := 4, category := "no_contradiction", label := "pass", score := 1,
      details := "No related rules provided for comparison.", rule_element := none }
  else
    let contradictions := contradictionEntries rule related_rules
    let contradicting_ids := collectContradictingIds contradictions
    if contradictions = [] then
      { tier := 4, category := "no_contradiction", label := "pass", score := 1,
        details := "No contradicting outcomes found with related rules.",
        rule_element := some "decision_tree" }
    else if contradictions.any (fun c => c.conditions_overlap) then
      { tier := 4, category := "no_contradiction", label := "fail", score := 1/5,
        details := "Found " ++ toString contradictions.length ++
          " contradiction(s) with overlapping conditions. Conflicting rules: " ++
          String.intercalate ", " contradicting_ids ++ ".",
        rule_element := some "decision_tree" }
    else
      { tier := 4, category := "no_contradiction", label := "warning", score := 7/10,
        details := "Found " ++ toString contradictions.length ++
          " potential contradiction(s) but conditions appear disjoint. Rules: " ++
          String.intercalate ", " contradicting_ids ++ ".",
        rule_element := some "decision_tree" }

/-- `CrossRuleChecker._periods_overlap`: absent bounds become the sentinels;
overlap exists iff `max(starts) <= min(ends)`, and the overlap window is
returned only in that case. -/
def periodsOverlap (start1 end1 start2 end2 : Option ℕ) : Bool × Option ℕ × Option ℕ :=
  let s1 := start1.getD MIN_DATE
  let e1 := end1.getD MAX_DATE
  let s2 := start2.getD MIN_DATE
  let e2 := end2.getD MAX_DATE
  let overlap_start := max s1 s2
  let overlap_end := min e1 e2
  let overlaps := decide (overlap_start ≤ overlap_end)
  (overlaps,
   if overlaps then some overlap_start else none,
   if overlaps then some overlap_end else none)

/-- One element of `TemporalResult.overlapping_conflicts`. -/
structure TemporalConflict where
  rule1_id : String
  rule2_id : String
  overlap_start : Option ℕ
  overlap_end : Option ℕ
deriving DecidableEq

/-- The conflict-collection loop of
`CrossRuleChecker.check_temporal_consistency`: for every other rule with a
contradicting outcome pair, record the validity-window overlap when the
periods overlap. -/
def temporalConflicts (rule : Rule) (related : List Rule) : List TemporalConflict :=
  related.filterMap (fun other =>
    if other.rule_id = rule.rule_id then none
    else if !hasContradictingOutcomes rule other then none
    else
      let po := periodsOverlap rule.effective_from rule.effective_to
        other.effective_from other.effective_to
      if po.1 then some ⟨rule.rule_id, other.rule_id, po.2.1, po.2.2⟩ else none)

/-- Date formatting used in the temporal evidence details (absent = the
string used for an unbounded side). -/
def boundStr : Option ℕ → String
  | none => "unbounded"
  | some d => toString d

/-- `CrossRuleChecker.check_temporal_consistency`: evidence aggregation over
the collected temporal conflicts. -/
def check_temporal_consistency (rule : Rule) (related_rules : List Rule) : ConsistencyEvidence :=
  if related_rules.isEmpty then
    { tier := 4, category := "temporal_consistent", label := "pass", score := 1,
      details := "No related rules provided for temporal comparison.", rule_element := none }
  else
    let overlapping_conflicts := temporalConflicts rule related_rules
    if overlapping_conflicts = [] then
      { tier := 4, category := "temporal_consistent", label := "pass", score := 1,
        details := "Rule validity: " ++ boundStr rule.effective_from ++ " to " ++
          boundStr rule.effective_to ++ ". No temporal conflicts found.",
        rule_element := some "effective_from,effective_to" }
    else
      { tier := 4, category := "temporal_consistent", label := "warning", score := 1/2,
        details := "Found " ++ toString overlapping_conflicts.length ++
          " temporal conflict(s). Conflicting rules active in same period: " ++
          String.intercalate ", " (overlapping_conflicts.map (fun c => c.rule2_id)) ++ ".",
        rule_element := some "effective_from,effective_to" }

/-! ### Tokenisation shared by the heuristic scorers
(`backend/verification/embeddings.py`, `backend/verification/nli.py`) -/

/-- `str.lower` as a character list (ASCII case mapping). -/
def toLowerCl (s : String) : List Char :=
  s.data.map Char.toLower

/-- A regex word character (`\w`, ASCII): alphanumeric or underscore. -/
def isWordChar (c : Char) : Bool :=
  c.isAlphanum || c == '_'

/-- Maximal word-character runs of a character list (the segments between
which `\b` boundaries fall). -/
def wordRunsAux : List Char → List Char → List (List Char)
  | [], acc => if acc.isEmpty then [] else [acc.reverse]
  | c :: cs, acc =>
    if isWordChar c then wordRunsAux cs (c :: acc)
    else if acc.isEmpty then wordRunsAux cs []
    else acc.reverse :: wordRunsAux cs []

/-- Maximal word-character runs of a character list. -/
def wordRuns (cs : List Char) : List (List Char) :=
  wordRunsAux cs []

/-- `re.findall(r"\b[a-zA-Z]{k,}\b", text.lower())`: the maximal word runs
of the lowercased text that are entirely alphabetic and of length at least
`k` (a run touching a digit or underscore has no inner word boundary, so the
regex rejects it). -/
def tokenizeMin (k : ℕ) (s : String) : List String :=
  ((wordRuns (toLowerCl s)).filter (fun r => k ≤ r.length && r.all Char.isAlpha)).map
    (fun r => String.mk r)

/-! ### NLI heuristic classifier (`backend/verification/nli.py`) -/

/-- `NLILabel`. -/
inductive NLILabel where
  | entailment
  | neutral
  | contradiction
deriving DecidableEq

/-- `NLIResult`: label, confidence and the three component scores. -/
structure NLIResult where
  label : NLILabel
  confidence : ℚ
  entailment_score : ℚ
  neutral_score : ℚ
  contradiction_score : ℚ
deriving DecidableEq

/-- A `\b`-delimited occurrence of `pat` starting at index `i` of `cs`
(every negation marker starts and ends with a word character, so the
boundary requirement is that the adjacent characters, when they exist, are
non-word). -/
def matchBoundedAt (pat cs : List Char) (i : ℕ) : Bool :=
  decide ((cs.drop i).take pat.length = pat)
    && (decide (i = 0) || !isWordChar (cs.getD (i - 1) ' '))
    && (decide (cs.length ≤ i + pat.length) || !isWordChar (cs.getD (i + pat.length) ' '))

/-- `re.search(r"\b<pat>\b", cs)` as a scan over all start positions. -/
def containsBoundedWord (pat cs : List Char) : Bool :=
  (List.range (cs.length + 1)).any (fun i => matchBoundedAt pat cs i)

/-- `NLIChecker._has_negation`'s fixed marker set (the contraction marker is
the three characters n-apostrophe-t). -/
def negationMarkers : List (List Char) :=
  ["not".data, "no".data, "never".data, "without".data, "prohibited".data,
   "forbidden".data, "excluded".data, "denied".data,
   ['n', Char.ofNat 39, 't']]

/-- `NLIChecker._has_negation`: any marker occurs word-bounded in the
lowercased text. -/
def hasNegation (s : String) : Bool :=
  negationMarkers.any (fun m => containsBoundedWord m (toLowerCl s))

/-- `NLIChecker._classify_heuristic`: negation-polarity XOR, then token
overlap thresholds over alphabetic tokens of length at least 3. -/
def classifyHeuristic (premise hypothesis : String) : NLIResult :=
  let premise_negated := hasNegation premise
  let hypothesis_negated := hasNegation hypothesis
  if premise_negated != hypothesis_negated then
    { label := .contradiction, confidence := 3/5,
      entailment_score := 1/5, neutral_score := 1/5, contradiction_score := 3/5 }
  else
    let premise_tokens := (tokenizeMin 3 premise).toFinset
    let hypothesis_tokens := (tokenizeMin 3 hypothesis).toFinset
    if hypothesis_tokens = ∅ then
      { label := .neutral, confidence := 2/5,
        entailment_score := 3/10, neutral_score := 2/5, contradiction_score := 3/10 }
    else
      let overlap_frac : ℚ :=
        ((premise_tokens ∩ hypothesis_tokens).card : ℚ) / (hypothesis_tokens.card : ℚ)
      if overlap_frac > 7/10 then
        let confidence := 1/2 + (overlap_frac - 7/10) * 1
        { label := .entailment, confidence := min confidence (4/5),
          entailment_score := confidence, neutral_score := 3/20, contradiction_score := 1/20 }
      else if overlap_frac > 2/5 then
        { label := .neutral, confidence := 1/2,
          entailment_score := 3/10, neutral_score := 1/2, contradiction_score := 1/5 }
      else
        { label := .neutral, confidence := 2/5,
          entailment_score := 1/4, neutral_score := 2/5, contradiction_score := 7/20 }

/-- `max` over a non-empty list (Python `max(...)`; the empty case never
arises at the call site and defaults to 0). -/
def listMaxQ : List ℚ → ℚ
  | [] => 0
  | [x] => x
  | x :: y :: xs => max x (listMaxQ (y :: xs))

/-- `NLIChecker._aggregate_results`: component means, sticky high-confidence
contradiction, otherwise first-maximum majority vote in the order
entailment, neutral, contradiction (Python `max` over the counts dict). -/
def aggregateResults (results : List NLIResult) : NLIResult :=
  if results.isEmpty then
    { label := .neutral, confidence := 1/2,
      entailment_score := 33/100, neutral_score := 34/100, contradiction_score := 33/100 }
  else
    let n : ℚ := results.length
    let avg_entailment := (results.map (fun r => r.entailment_score)).sum / n
    let avg_neutral := (results.map (fun r => r.neutral_score)).sum / n
    let avg_contradiction := (results.map (fun r => r.contradiction_score)).sum / n
    if results.any (fun r => r.label = .contradiction && r.confidence > 3/5) then
      { label := .contradiction,
        confidence :=
          listMaxQ ((results.filter (fun r => r.label = .contradiction)).map
            (fun r => r.confidence)),
        entailment_score := avg_entailment, neutral_score := avg_neutral,
        contradiction_score := avg_contradiction }
    else
      let ce := results.countP (fun r => r.label = .entailment)
      let cn := results.countP (fun r => r.label = .neutral)
      let cc := results.countP (fun r => r.label = .contradiction)
      let winning_label : NLILabel :=
        if ce ≥ cn ∧ ce ≥ cc then .entailment
        else if cn ≥ cc then .neutral
        else .contradiction
      { label := winning_label,
        confidence := (results.map (fun r => r.confidence)).sum / n,
        entailment_score := avg_entailment, neutral_score := avg_neutral,
        contradiction_score := avg_contradiction }

/-! ### Heuristic similarity scorer (`backend/verification/embeddings.py`) -/

/-- `EmbeddingChecker._cosine_similarity`: dot product over the zipped
vectors, zero when either norm is zero. -/
noncomputable def cosineSimilarity (vec1 vec2 : List ℝ) : ℝ :=
  let dot_product := (List.zipWith (fun a b => a * b) vec1 vec2).sum
  let norm1 := Real.sqrt ((vec1.map (fun a => a * a)).sum)
  let norm2 := Real.sqrt ((vec2.map (fun b => b * b)).sum)
  if norm1 = 0 ∨ norm2 = 0 then 0 else dot_product / (norm1 * norm2)

/-- The smoothed IDF of `EmbeddingChecker._tfidf_overlap`:
`ln((2+1)/(df+1)) + 1` with `df` the number of the two documents containing
the term. -/
noncomputable def idfOf (tokens1 tokens2 : List String) (t : String) : ℝ :=
  Real.log ((2 + 1) /
    (((if t ∈ tokens1 then 1 else 0) + (if t ∈ tokens2 then 1 else 0) : ℝ) + 1)) + 1

/-- The union vocabulary of the two token lists (Python `set(tokens1) |
set(tokens2)`; list order is irrelevant to the cosine). -/
def unionVocabulary (tokens1 tokens2 : List String) : List String :=
  (tokens1 ++ tokens2).dedup

/-- `EmbeddingChecker._tfidf_overlap`: cosine similarity of the TF-IDF
vectors over the union vocabulary (term frequency = occurrence count). -/
noncomputable def tfidfOverlap (tokens1 tokens2 : List String) : ℝ :=
  let all_tokens := unionVocabulary tokens1 tokens2
  if all_tokens.isEmpty then 0
  else
    cosineSimilarity
      (all_tokens.map (fun t => (tokens1.count t : ℝ) * idfOf tokens1 tokens2 t))
      (all_tokens.map (fun t => (tokens2.count t : ℝ) * idfOf tokens1 tokens2 t))

/-- The set of character `n`-grams of a character list
(`set(text[i:i+n] for i in range(len(text) - n + 1))`; for `len(text) < n`
the range is empty). -/
def charNgrams (cs : List Char) (n : ℕ) : Finset (List Char) :=
  ((List.range (cs.length + 1 - n)).map (fun i => (cs.drop i).take n)).toFinset

/-- One iteration of the `_ngram_similarity` loop: the Jaccard similarity
of the two `n`-gram sets when both are non-empty, else a zero
contribution. -/
def ngramJaccardAt (cs1 cs2 : List Char) (n : ℕ) : ℚ :=
  if (charNgrams cs1 n).Nonempty ∧ (charNgrams cs2 n).Nonempty then
    ((charNgrams cs1 n ∩ charNgrams cs2 n).card : ℚ) /
      ((charNgrams cs1 n ∪ charNgrams cs2 n).card : ℚ)
  else 0

/-- `EmbeddingChecker._ngram_similarity` with the default `n_values=[2,3]`:
the loop accumulates the per-`n` contributions and divides by
`len(n_values) = 2`. -/
def ngramSimilarity (text1 text2 : String) : ℚ :=
  (ngramJaccardAt (toLowerCl text1) (toLowerCl text2) 2 +
    ngramJaccardAt (toLowerCl text1) (toLowerCl text2) 3) / 2

/-- `EmbeddingChecker._jaccard_similarity` over the token sets. -/
def jaccardSimilarity (tokens1 tokens2 : List String) : ℚ :=
  let set1 := tokens1.toFinset
  let set2 := tokens2.toFinset
  if set1 = ∅ ∧ set2 = ∅ then 0
  else ((set1 ∩ set2).card : ℚ) / ((set1 ∪ set2).card : ℚ)

/-- `EmbeddingChecker._compute_heuristic_similarity`'s score: 0 when either
text tokenises to nothing, otherwise the weighted combination
`0.40*tfidf + 0.35*ngram + 0.25*jaccard`. -/
noncomputable def computeHeuristicSimilarity (text1 text2 : String) : ℝ :=
  let tokens1 := tokenizeMin 2 text1
  let tokens2 := tokenizeMin 2 text2
  if tokens1.isEmpty ∨ tokens2.isEmpty then 0
  else
    (2/5) * tfidfOverlap tokens1 tokens2
      + (7/20) * ((ngramSimilarity text1 text2 : ℚ) : ℝ)
      + (1/4) * ((jaccardSimilarity tokens1 tokens2 : ℚ) : ℝ)

/-! ### Workflow data model (`backend/workflows/schemas.py`) -/

/-- `WorkflowStatus`. -/
inductive WorkflowStatus where
  | pending
  | running
  | completed
  | failed
  | cancelled
  | timed_out
deriving DecidableEq

/-- `TierResult` (tiers are their `VerificationTier` integer values; the
wall-clock `duration_ms` and the raw evidence dicts are omitted). -/
structure TierResult where
  tier : ℕ
  tier_name : String
  passed : Bool
  score : ℚ
  checks_run : ℕ
  checks_passed : ℕ
deriving DecidableEq

/-- `RuleVerificationInput` (tiers as integer values). -/
structure RuleVerificationInput where
  rule_id : String
  source_text : Option String
  max_tier : ℕ
  skip_tiers : List ℕ
  fail_fast : Bool

/-- `RuleVerificationOutput` (identity and wall-clock fields omitted). -/
structure RuleVerificationOutput where
  status : WorkflowStatus
  rule_id : String
  tier_results : List TierResult
  highest_tier_passed : Option ℕ
  overall_score : ℚ
  overall_passed : Bool
  stopped_early : Bool
  stop_reason : Option String
  error : Option String

/-! ### RuleVerificationWorkflow (`backend/workflows/workflows.py`) -/

/-- The five tier values, in ascending execution order. -/
def allTiers : List ℕ := [0, 1, 2, 3, 4]

/-- The `_tiers_remaining` snapshot: tiers up to `max_tier` that are not in
the pre-declared skip set. -/
def tiersToRun (inp : RuleVerificationInput) : List ℕ :=
  allTiers.filter (fun t => t ≤ inp.max_tier && !(inp.skip_tiers.contains t))

/-- The `stop_reason` message recorded on a fail-fast early termination. -/
def stopMessage (t : ℕ) (tierName : String) : String :=
  "Tier " ++ toString t ++ " (" ++ tierName ++ ") failed"

/-- The sequential tier loop of `RuleVerificationWorkflow.run`.

`outcome t` is the `TierResult` returned by tier `t`'s verification
activity.  Signals are cooperative: `sigs` lists, per loop iteration, the
tiers added to the skip set by `skip_tier` signals delivered before that
iteration's skip check runs (a signal that arrives while a tier's activity
is in flight lands before the next iteration, which is the earliest point at
which it can be observed).  Returns the accumulated `tier_results`,
`stopped_early`, and `stop_reason`. -/
def tierLoop (fail_fast : Bool) (outcome : ℕ → TierResult) :
    List ℕ → List (List ℕ) → List ℕ → List TierResult × Bool × Option String
  | [], _, _ => ([], false, none)
  | t :: rest, sigs, skips =>
    if t ∈ skips ++ sigs.headD [] then
      tierLoop fail_fast outcome rest sigs.tail (skips ++ sigs.headD [])
    else if fail_fast && !(outcome t).passed then
      ([outcome t], true, some (stopMessage t (outcome t).tier_name))
    else
      ((outcome t) :: (tierLoop fail_fast outcome rest sigs.tail (skips ++ sigs.headD [])).1,
       (tierLoop fail_fast outcome rest sigs.tail (skips ++ sigs.headD [])).2.1,
       (tierLoop fail_fast outcome rest sigs.tail (skips ++ sigs.headD [])).2.2)

/-- `RuleVerificationWorkflow.run` as a function of the activity outcomes.

`loadError` is the terminal failure of the `load_rule_activity` call after
retries (`none` = the rule loaded); `outcome` gives each tier activity's
result; `sigs` schedules the `skip_tier` signal deliveries as in
`tierLoop`.  On the success path the final aggregation mirrors lines
426–453 of `workflows.py`; on a load failure the `except` branch's output
record is produced. -/
def ruleVerificationRun (inp : RuleVerificationInput) (loadError : Option String)
    (outcome : ℕ → TierResult) (sigs : List (List ℕ)) : RuleVerificationOutput :=
  match loadError with
  | some e =>
    { status := .failed, rule_id := inp.rule_id, tier_results := [],
      highest_tier_passed := none, overall_score := 0, overall_passed := false,
      stopped_early := true, stop_reason := some e, error := some e }
  | none =>
    let looped := tierLoop inp.fail_fast outcome (tiersToRun inp) sigs inp.skip_tiers
    let results := looped.1
    { status := .completed, rule_id := inp.rule_id, tier_results := results,
      highest_tier_passed := (results.reverse.find? (fun r => r.passed)).map (fun r => r.tier),
      overall_score :=
        if results.length = 0 then 0
        else (results.map (fun r => r.score)).sum / (results.length : ℚ),
      overall_passed := results.all (fun r => r.passed),
      stopped_early := looped.2.1, stop_reason := looped.2.2, error := none }

/-! ### Counterfactual activities (`backend/workflows/activities.py`) -/

/-- One obligation record of the external decision engine's result. -/
structure EngineObligation where
  id : String
  description : String
  deadline : Option String
deriving DecidableEq

/-- One trace step of the external decision engine's result. -/
structure EngineTraceStep where
  node : String
  condition : Option String
  result : Option String
deriving DecidableEq

/-- The external `DecisionEngine.evaluate` result interface:
`decision` is nullable.  Fact values are modelled as scalar strings (the
activities drop list/dict-valued facts before building the scenario, which
is the identity on scalar fact maps). -/
structure EngineEvalResult where
  decision : Option String
  applicable : Bool
  obligations : List EngineObligation
  trace : List EngineTraceStep
deriving DecidableEq

/-- `ScenarioResult` (scenario types as their string values). -/
structure ScenarioResult where
  scenario_id : String
  scenario_type : String
  description : String
  decision : String
  applicable : Bool
  obligations : List EngineObligation
  trace : List EngineTraceStep
  differs_from_baseline : Bool
  key_differences : List String
deriving DecidableEq

/-- Python `result.decision or "unknown"`: `None` and the empty string are
falsy. -/
def decisionOrUnknown : Option String → String
  | none => "unknown"
  | some s => if s = "" then "unknown" else s

/-- Python string formatting of an `Optional[str]` decision (`None` prints
as the text `None`). -/
def decisionRepr : Option String → String
  | none => "None"
  | some s => s

/-- Python `result.decision != baseline_decision` with `result.decision`
nullable and `baseline_decision` a string: `None` compares unequal to every
string. -/
def decisionDiffers : Option String → String → Bool
  | none, _ => true
  | some s, b => s != b

/-- Python `{**baseline_facts, **modified_facts}` on scalar fact maps:
baseline keys keep their position but take the modified value when
overridden; keys new in `modified_facts` follow. -/
def pyMergeFacts (baseline modified : List (String × String)) : List (String × String) :=
  baseline.map (fun kv => (kv.1, ((modified.lookup kv.1).getD kv.2)))
    ++ modified.filter (fun kv => (baseline.lookup kv.1).isNone)

/-- `evaluate_baseline_activity`: wraps the engine evaluation of the
baseline facts into a `ScenarioResult` with `differs_from_baseline=False`
(`scenario_type` is the `THRESHOLD` placeholder). -/
def evaluateBaselineActivity (engineEvaluate : String → List (String × String) → EngineEvalResult)
    (rule_id : String) (facts : List (String × String)) : ScenarioResult :=
  let result := engineEvaluate rule_id facts
  { scenario_id := "baseline", scenario_type := "threshold",
    description := "Baseline scenario",
    decision := decisionOrUnknown result.decision,
    applicable := result.applicable,
    obligations := result.obligations, trace := result.trace,
    differs_from_baseline := false, key_differences := [] }

/-- The fact-diff messages of `analyze_counterfactual_activity`: one entry
per modified key whose value differs from the baseline value (an absent
baseline value prints as `None`). -/
def factDiffMessages (baseline modified : List (String × String)) : List String :=
  modified.filterMap (fun kv =>
    match baseline.lookup kv.1 with
    | none => some (kv.1 ++ ": None -> " ++ kv.2)
    | some old => if old != kv.2 then some (kv.1 ++ ": " ++ old ++ " -> " ++ kv.2) else none)

/-- `analyze_counterfactual_activity`: evaluate the merged facts, compare
the (nullable) engine decision against the supplied baseline decision
string, and collect the key differences. -/
def analyzeCounterfactualActivity
    (engineEvaluate : String → List (String × String) → EngineEvalResult)
    (rule_id : String) (baseline_facts : List (String × String))
    (scenario_id scenario_type description : String)
    (modified_facts : List (String × String)) (baseline_decision : String) : ScenarioResult :=
  let merged_facts := pyMergeFacts baseline_facts modified_facts
  let result := engineEvaluate rule_id merged_facts
  let differs := decisionDiffers result.decision baseline_decision
  let key_differences :=
    (if differs then
      ["Decision changed from " ++ baseline_decision ++ " to " ++ decisionRepr result.decision]
     else [])
    ++ factDiffMessages baseline_facts modified_facts
  { scenario_id := scenario_id, scenario_type := scenario_type, description := description,
    decision := decisionOrUnknown result.decision,
    applicable := result.applicable,
    obligations := result.obligations, trace := result.trace,
    differs_from_baseline := differs, key_differences := key_differences }

/-! ### DriftDetectionWorkflow (`backend/workflows/workflows.py`,
`backend/workflows/activities.py`) -/

/-- `RuleDriftResult` (wall-clock fields omitted). -/
structure RuleDriftResult where
  rule_id : String
  has_drift : Bool
  drift_types : List String
  details : List String
  severity : String
deriving DecidableEq

/-- `DriftDetectionInput` (drift-kind toggles that the activity does not
read are omitted). -/
structure DriftDetectionInput where
  rule_ids : Option (List String)
  notify_on_drift : Bool

/-- `DriftDetectionOutput` (identity and wall-clock fields omitted). -/
structure DriftDetectionOutput where
  status : WorkflowStatus
  rules_checked : ℕ
  rules_with_drift : ℕ
  drift_results : List RuleDriftResult
  notifications_sent : ℕ
  error : Option String

/-- `check_rule_drift_activity`: a missing rule degrades to a
`rule_missing` drift result; otherwise the Tier-0 evidence (from the
consistency engine, supplied as input) is scanned for `schema_drift` and
`reference_drift`, and the severity ladder is applied.  `ruleFound` is the
rule-store lookup outcome. -/
def checkRuleDriftActivity (rule_id : String) (ruleFound : Bool)
    (tier0Evidence : List ConsistencyEvidence) : RuleDriftResult :=
  if !ruleFound then
    { rule_id := rule_id, has_drift := true, drift_types := ["rule_missing"],
      details := ["Rule no longer exists in rule data"], severity := "critical" }
  else
    let drift_types := tier0Evidence.flatMap (fun e =>
      if e.label = "fail" then ["schema_drift"]
      else if e.label = "warning" && e.category = "source_exists" then ["reference_drift"]
      else [])
    let details := tier0Evidence.flatMap (fun e =>
      if e.label = "fail" then ["Schema check failed: " ++ e.details]
      else if e.label = "warning" && e.category = "source_exists" then
        ["Reference issue: " ++ e.details]
      else [])
    let severity :=
      if "schema_drift" ∈ drift_types then "high"
      else if "reference_drift" ∈ drift_types then "medium"
      else if !drift_types.isEmpty then "low"
      else "none"
    { rule_id := rule_id, has_drift := !drift_types.isEmpty, drift_types := drift_types,
      details := details, severity := severity }

/-- The batched drift sweep (`batch_size = 10`, sequential across batches):
results accumulate in rule order. -/
def driftBatches (check : String → RuleDriftResult) (ids : List String) : List RuleDriftResult :=
  if ids.isEmpty then []
  else (ids.take 10).map check ++ driftBatches check (ids.drop 10)
termination_by ids.length
decreasing_by
  cases ids with
  | nil => simp at *
  | cons x xs => simp [List.length_drop]; omega

/-- Phase 1 of `DriftDetectionWorkflow.run`: Python `if input.rule_ids:`
is a truthiness test, so both `None` and an empty list fall back to the
full corpus fetched by `get_all_rule_ids_activity` (supplied as
`allRuleIds`). -/
def resolveDriftRuleIds (inp : DriftDetectionInput) (allRuleIds : List String) : List String :=
  match inp.rule_ids with
  | some (x :: xs) => x :: xs
  | _ => allRuleIds

/-- `DriftDetectionWorkflow.run` as a function of the activity outcomes:
resolve the rule-id list, sweep it in batches of 10 through the (total)
drift-check activity, and aggregate. -/
def driftDetectionRun (inp : DriftDetectionInput) (allRuleIds : List String)
    (ruleFound : String → Bool) (tier0Evidence : String → List ConsistencyEvidence) :
    DriftDetectionOutput :=
  let ids := resolveDriftRuleIds inp allRuleIds
  let drift_results :=
    driftBatches (fun rid => checkRuleDriftActivity rid (ruleFound rid) (tier0Evidence rid)) ids
  let drift_detected := drift_results.countP (fun r => r.has_drift)
  let notifications_sent :=
    if inp.notify_on_drift && drift_detected > 0 then
      (drift_results.filter (fun r => r.has_drift)).length
    else 0
  { status := .completed, rules_checked := drift_results.length,
    rules_with_drift := drift_detected, drift_results := drift_results,
    notifications_sent := notifications_sent, error := none }

/-! ### Concrete fixtures used by the witness theorems -/

/-- A rule permitting its activity, valid 2024-01-01 to 2024-06-30. -/
def ruleA : Rule :=
  { rule_id := "RULE-A", description := "", interpretation_notes := "",
    applies_if := none, decision_tree := some (.leaf "permitted"),
    effective_from := some 20240101, effective_to := some 20240630 }

/-- A rule prohibiting the activity, valid 2024-06-01 to 2024-12-31. -/
def ruleB : Rule :=
  { rule_id := "RULE-B", description := "", interpretation_notes := "",
    applies_if := none, decision_tree := some (.leaf "prohibited"),
    effective_from := some 20240601, effective_to := some 20241231 }

/-- A rule prohibiting the activity, valid 2024-07-01 to 2024-12-31. -/
def ruleC : Rule :=
  { rule_id := "RULE-C", description := "", interpretation_notes := "",
    applies_if := none, decision_tree := some (.leaf "prohibited"),
    effective_from := some 20240701, effective_to := some 20241231 }

/-- A tier-activity outcome function on which every tier fails. -/
def tierOutcomeAllFail : ℕ → TierResult :=
  fun t => { tier := t, tier_name := "tier" ++ toString t, passed := false,
             score := 1/2, checks_run := 3, checks_passed := 1 }

/-- A tier-activity outcome function on which every tier passes. -/
def tierOutcomeAllPass : ℕ → TierResult :=
  fun t => { tier := t, tier_name := "tier" ++ toString t, passed := true,
             score := 1, checks_run := 3, checks_passed := 3 }

/-- A decision-engine stub whose decision is `None`. -/
def engineEvalDecisionNone : String → List (String × String) → EngineEvalResult :=
  fun _ _ => { decision := none, applicable := false, obligations := [], trace := [] }

/-- A decision-engine stub whose decision is the string `permitted`. -/
def engineEvalDecisionPermitted : String → List (String × String) → EngineEvalResult :=
  fun _ _ => { decision := some "permitted", applicable := true, obligations := [], trace := [] }

/-- A rule-store lookup stub on which exactly the id `missing` fails. -/
def lookupAllButMissing : String → Bool :=
  fun rid => rid != "missing"
/-- A default verification input: all tiers, nothing skipped, fail fast. -/
def rvDefaultInput : RuleVerificationInput :=
  { rule_id := "r-1", source_text := none, max_tier := 4, skip_tiers := [],
    fail_fast := true }

/-- A verification input pre-declaring tier 2 skipped. -/
def rvSkip2Input : RuleVerificationInput :=
  { rule_id := "r-1", source_text := none, max_tier := 4, skip_tiers := [2],
    fail_fast := true }

/-- A single NLI result: contradiction at confidence 0.7. -/
def nliContradictionHigh : NLIResult :=
  { label := .contradiction, confidence := 7/10, entailment_score := 1/10,
    neutral_score := 1/10, contradiction_score := 8/10 }

/-! ### Bridging lemmas -/

/-- The Boolean outcome-pair scan agrees with its existential reading. -/
theorem hasContradictingOutcomes_iff (r1 r2 : Rule) :
    hasContradictingOutcomes r1 r2 = true ↔
      ∃ p ∈ outcomesOf r1, ∃ o ∈ outcomesOf r2, areContradicting p o = true := by
  simp [hasContradictingOutcomes, List.any_eq_true]

/-! ### C3 -/

/-- C3: for every pair of rules whose outcome sets contain a contradicting
pair, the temporal check treats an absent `effective_from` as 1900-01-01 and
an absent `effective_to` as 2999-12-31 and reports a temporal conflict iff
`max(start1, start2) <= min(end1, end2)`, recording `overlap_start` as the
max of the starts and `overlap_end` as the min of the ends. -/
theorem temporal_check_reports_conflict_iff_overlap (rule other : Rule)
    (hid : other.rule_id ≠ rule.rule_id)
    (hc : ∃ p ∈ outcomesOf rule, ∃ o ∈ outcomesOf other, areContradicting p o = true) :
    temporalConflicts rule [other] =
      (if max (rule.effective_from.getD MIN_DATE) (other.effective_from.getD MIN_DATE) ≤
          min (rule.effective_to.getD MAX_DATE) (other.effective_to.getD MAX_DATE) then
        [{ rule1_id := rule.rule_id, rule2_id := other.rule_id,
           overlap_start := some (max (rule.effective_from.getD MIN_DATE)
             (other.effective_from.getD MIN_DATE)),
           overlap_end := some (min (rule.effective_to.getD MAX_DATE)
             (other.effective_to.getD MAX_DATE)) }]
       else []) := by
  have hb : hasContradictingOutcomes rule other = true :=
    (hasContradictingOutcomes_iff rule other).2 hc
  simp only [temporalConflicts, List.filterMap_cons, List.filterMap_nil, periodsOverlap, hb,
    Bool.not_true, if_neg hid, Bool.false_eq_true, if_false]
  by_cases h : max (rule.effective_from.getD MIN_DATE) (other.effective_from.getD MIN_DATE) ≤
      min (rule.effective_to.getD MAX_DATE) (other.effective_to.getD MAX_DATE)
  · simp [h]
  · simp [h]

/-- Witness for C3 at the spec's example windows: A = [2024-01-01,
2024-06-30] against B = [2024-06-01, 2024-12-31] yields the overlap
[2024-06-01, 2024-06-30]; A against C = [2024-07-01, 2024-12-31] yields no
conflict. -/
theorem temporal_check_reports_conflict_iff_overlap_witness :
    temporalConflicts ruleA [ruleB] =
      [{ rule1_id := "RULE-A", rule2_id := "RULE-B",
         overlap_start := some 20240601, overlap_end := some 20240630 }] ∧
    temporalConflicts ruleA [ruleC] = [] := by
  constructor
  · rw [temporal_check_reports_conflict_iff_overlap ruleA ruleB (by decide) (by decide)]
    decide
  · rw [temporal_check_reports_conflict_iff_overlap ruleA ruleC (by decide) (by decide)]
    decide

/-! ### C4 -/

/-- Membership characterisation of the contradiction-pair collection. -/
theorem mem_contradictionEntries (rule : Rule) (related : List Rule) (e : ContradictionPair) :
    e ∈ contradictionEntries rule related ↔
      ∃ other ∈ related, other.rule_id ≠ rule.rule_id ∧
        ∃ p ∈ outcomesOf rule, ∃ o ∈ outcomesOf other, areContradicting p o = true ∧
          e = { rule1_id := rule.rule_id, rule1_outcome := p, rule2_id := other.rule_id,
                rule2_outcome := o, conditions_overlap := conditionsOverlap rule other } := by
  simp only [contradictionEntries, List.mem_flatMap, List.mem_filterMap]
  constructor
  · rintro ⟨other, hother, hmem⟩
    by_cases hid : other.rule_id = rule.rule_id
    · simp [hid] at hmem
    · simp only [if_neg hid, List.mem_flatMap, List.mem_filterMap] at hmem
      obtain ⟨p, hp, o, ho, hcnd⟩ := hmem
      by_cases hco : areContradicting p o = true
      · simp only [hco, if_true] at hcnd
        exact ⟨other, hother, hid, p, hp, o, ho, hco, (Option.some_inj.1 hcnd).symm⟩
      · simp [hco] at hcnd
  · rintro ⟨other, hother, hid, p, hp, o, ho, hco, he⟩
    refine ⟨other, hother, ?_⟩
    simp only [if_neg hid, List.mem_flatMap, List.mem_filterMap]
    exact ⟨p, hp, o, ho, by simp [hco, he]⟩

/-- The collected pairs are empty iff no other rule has a contradicting
outcome pair against the primary rule. -/
theorem contradictionEntries_eq_nil_iff (rule : Rule) (related : List Rule) :
    contradictionEntries rule related = [] ↔
      ¬ ∃ other ∈ related, other.rule_id ≠ rule.rule_id ∧
          hasContradictingOutcomes rule other = true := by
  rw [List.eq_nil_iff_forall_not_mem]
  constructor
  · rintro h ⟨other, hother, hid, hc⟩
    obtain ⟨p, hp, o, ho, hco⟩ := (hasContradictingOutcomes_iff rule other).1 hc
    exact h _ ((mem_contradictionEntries rule related _).2
      ⟨other, hother, hid, p, hp, o, ho, hco, rfl⟩)
  · rintro h e he
    obtain ⟨other, hother, hid, p, hp, o, ho, hco, -⟩ :=
      (mem_contradictionEntries rule related e).1 he
    exact h ⟨other, hother, hid, (hasContradictingOutcomes_iff rule other).2 ⟨p, hp, o, ho, hco⟩⟩

/-- Some collected pair is flagged as condition-overlapping iff some other
rule both contradicts the primary rule and has overlapping conditions. -/
theorem contradictionEntries_any_overlap_iff (rule : Rule) (related : List Rule) :
    (contradictionEntries rule related).any (fun c => c.conditions_overlap) = true ↔
      ∃ other ∈ related, other.rule_id ≠ rule.rule_id ∧
        hasContradictingOutcomes rule other = true ∧ conditionsOverlap rule other = true := by
  rw [List.any_eq_true]
  constructor
  · rintro ⟨e, he, hov⟩
    obtain ⟨other, hother, hid, p, hp, o, ho, hco, rfl⟩ :=
      (mem_contradictionEntries rule related e).1 he
    exact ⟨other, hother, hid,
      (hasContradictingOutcomes_iff rule other).2 ⟨p, hp, o, ho, hco⟩, hov⟩
  · rintro ⟨other, hother, hid, hc, hov⟩
    obtain ⟨p, hp, o, ho, hco⟩ := (hasContradictingOutcomes_iff rule other).1 hc
    exact ⟨_, (mem_contradictionEntries rule related _).2
      ⟨other, hother, hid, p, hp, o, ho, hco, rfl⟩, hov⟩

/-- C4: with a non-empty related corpus, `check_contradiction` passes with
score 1.0 when no other rule contradicts the primary rule; fails with score
0.2 when some contradicting rule has overlapping conditions; and warns with
score 0.7 when contradictions exist but none overlaps — where conditions
fail to overlap exactly when both rules have a non-null `applies_if` whose
collected field sets are non-empty and disjoint. -/
theorem check_contradiction_severity (rule : Rule) (related : List Rule)
    (hne : related ≠ []) :
    ((¬ ∃ other ∈ related, other.rule_id ≠ rule.rule_id ∧
          hasContradictingOutcomes rule other = true) →
        (check_contradiction rule related).label = "pass" ∧
        (check_contradiction rule related).score = 1) ∧
    ((∃ other ∈ related, other.rule_id ≠ rule.rule_id ∧
          hasContradictingOutcomes rule other = true ∧ conditionsOverlap rule other = true) →
        (check_contradiction rule related).label = "fail" ∧
        (check_contradiction rule related).score = 1/5) ∧
    (((∃ other ∈ related, other.rule_id ≠ rule.rule_id ∧
          hasContradictingOutcomes rule other = true) ∧
        (∀ other ∈ related, other.rule_id ≠ rule.rule_id →
          hasContradictingOutcomes rule other = true → conditionsOverlap rule other = false)) →
        (check_contradiction rule related).label = "warning" ∧
        (check_contradiction rule related).score = 7/10) ∧
    (∀ r1 r2 : Rule, conditionsOverlap r1 r2 = false ↔
      ∃ c1, r1.applies_if = some c1 ∧ ∃ c2, r2.applies_if = some c2 ∧
        extractConditionFields c1 ≠ ∅ ∧ extractConditionFields c2 ≠ ∅ ∧
        extractConditionFields c1 ∩ extractConditionFields c2 = ∅) := by
  have hnem : related.isEmpty = false := by
    cases related with
    | nil => exact absurd rfl hne
    | cons a l => rfl
  refine ⟨?_, ?_, ?_, ?_⟩
  · intro h
    have hnil : contradictionEntries rule related = [] :=
      (contradictionEntries_eq_nil_iff rule related).2 h
    simp [check_contradiction, hnem, hnil]
  · intro h
    have hany : (contradictionEntries rule related).any (fun c => c.conditions_overlap) = true :=
      (contradictionEntries_any_overlap_iff rule related).2 h
    have hnnil : contradictionEntries rule related ≠ [] := by
      intro hnil
      rw [hnil] at hany
      simp at hany
    simp [check_contradiction, hnem, hnnil, hany]
  · rintro ⟨⟨other, hother, hid, hc⟩, hall⟩
    have hnnil : contradictionEntries rule related ≠ [] := by
      intro hnil
      exact (contradictionEntries_eq_nil_iff rule related).1 hnil ⟨other, hother, hid, hc⟩
    have hany : (contradictionEntries rule related).any (fun c => c.conditions_overlap) = false := by
      by_contra hcon
      rw [Bool.not_eq_false] at hcon
      obtain ⟨o2, ho2, hid2, hc2, hov2⟩ :=
        (contradictionEntries_any_overlap_iff rule related).1 hcon
      rw [hall o2 ho2 hid2 hc2] at hov2
      exact Bool.false_ne_true hov2
    simp [check_contradiction, hnem, hnnil, hany]
  · intro r1 r2
    constructor
    · intro h
      unfold conditionsOverlap at h
      cases h1 : r1.applies_if with
      | none => rw [h1] at h; simp at h
      | some c1 =>
        cases h2 : r2.applies_if with
        | none => rw [h1, h2] at h; simp at h
        | some c2 =>
          rw [h1, h2] at h
          simp only at h
          by_cases hcond : extractConditionFields c1 ≠ ∅ ∧ extractConditionFields c2 ≠ ∅ ∧
              extractConditionFields c1 ∩ extractConditionFields c2 = ∅
          · exact ⟨c1, rfl, c2, rfl, hcond.1, hcond.2.1, hcond.2.2⟩
          · rw [if_neg hcond] at h
            exact absurd h Bool.true_eq_false.mp
    · rintro ⟨c1, h1, c2, h2, hf1, hf2, hdisj⟩
      unfold conditionsOverlap
      rw [h1, h2]
      simp only
      rw [if_pos ⟨hf1, hf2, hdisj⟩]

/-- Witness for C4: `RULE-A` (permitted, no `applies_if`) against the
corpus `[RULE-B]` (prohibited, no `applies_if`): conditions overlap
broadly, so the check fails with score 0.2. -/
theorem check_contradiction_severity_witness :
    (check_contradiction ruleA [ruleB]).label = "fail" ∧
    (check_contradiction ruleA [ruleB]).score = 1/5 := by
  exact (check_contradiction_severity ruleA [ruleB] (List.cons_ne_nil _ _)).2.1
    ⟨ruleB, List.mem_singleton.2 rfl, by decide, by decide, by decide⟩

/-! ### C7 -/

/-- Let-free unfolding of `classifyHeuristic`. -/
theorem classifyHeuristic_eq (premise hypothesis : String) :
    classifyHeuristic premise hypothesis =
      if hasNegation premise != hasNegation hypothesis then
        { label := .contradiction, confidence := 3/5,
          entailment_score := 1/5, neutral_score := 1/5, contradiction_score := 3/5 }
      else if (tokenizeMin 3 hypothesis).toFinset = ∅ then
        { label := .neutral, confidence := 2/5,
          entailment_score := 3/10, neutral_score := 2/5, contradiction_score := 3/10 }
      else if (((tokenizeMin 3 premise).toFinset ∩ (tokenizeMin 3 hypothesis).toFinset).card : ℚ) /
          ((tokenizeMin 3 hypothesis).toFinset.card : ℚ) > 7/10 then
        { label := .entailment,
          confidence := min (1/2 + ((((tokenizeMin 3 premise).toFinset ∩
              (tokenizeMin 3 hypothesis).toFinset).card : ℚ) /
            ((tokenizeMin 3 hypothesis).toFinset.card : ℚ) - 7/10) * 1) (4/5),
          entailment_score := 1/2 + ((((tokenizeMin 3 premise).toFinset ∩
              (tokenizeMin 3 hypothesis).toFinset).card : ℚ) /
            ((tokenizeMin 3 hypothesis).toFinset.card : ℚ) - 7/10) * 1,
          neutral_score := 3/20, contradiction_score := 1/20 }
      else if (((tokenizeMin 3 premise).toFinset ∩ (tokenizeMin 3 hypothesis).toFinset).card : ℚ) /
          ((tokenizeMin 3 hypothesis).toFinset.card : ℚ) > 2/5 then
        { label := .neutral, confidence := 1/2,
          entailment_score := 3/10, neutral_score := 1/2, contradiction_score := 1/5 }
      else
        { label := .neutral, confidence := 2/5,
          entailment_score := 1/4, neutral_score := 2/5, contradiction_score := 7/20 } := rfl

/-- C7: the heuristic NLI classifier returns contradiction/0.6 exactly when
negation-marker presence differs between premise and hypothesis; otherwise
with `overlap = |premise ∩ hypothesis| / |hypothesis|` over alphabetic
tokens of length ≥ 3 it returns neutral/0.4 on an empty hypothesis token
set, entailment with confidence `min(0.5 + (overlap - 0.7), 0.8)` when
`overlap > 0.7`, neutral/0.5 when `0.4 < overlap ≤ 0.7`, and neutral/0.4
when `overlap ≤ 0.4`. -/
theorem classify_heuristic_cases (premise hypothesis : String) :
    (((classifyHeuristic premise hypothesis).label = .contradiction ∧
        (classifyHeuristic premise hypothesis).confidence = 3/5) ↔
      hasNegation premise ≠ hasNegation hypothesis) ∧
    (hasNegation premise = hasNegation hypothesis →
      ((tokenizeMin 3 hypothesis).toFinset = ∅ →
        (classifyHeuristic premise hypothesis).label = .neutral ∧
        (classifyHeuristic premise hypothesis).confidence = 2/5) ∧
      ((tokenizeMin 3 hypothesis).toFinset ≠ ∅ →
        (((((tokenizeMin 3 premise).toFinset ∩ (tokenizeMin 3 hypothesis).toFinset).card : ℚ) /
            ((tokenizeMin 3 hypothesis).toFinset.card : ℚ) > 7/10 →
          (classifyHeuristic premise hypothesis).label = .entailment ∧
          (classifyHeuristic premise hypothesis).confidence =
            min (1/2 + ((((tokenizeMin 3 premise).toFinset ∩
                (tokenizeMin 3 hypothesis).toFinset).card : ℚ) /
              ((tokenizeMin 3 hypothesis).toFinset.card : ℚ) - 7/10)) (4/5)) ∧
        (2/5 < (((tokenizeMin 3 premise).toFinset ∩ (tokenizeMin 3 hypothesis).toFinset).card : ℚ) /
            ((tokenizeMin 3 hypothesis).toFinset.card : ℚ) ∧
          (((tokenizeMin 3 premise).toFinset ∩ (tokenizeMin 3 hypothesis).toFinset).card : ℚ) /
            ((tokenizeMin 3 hypothesis).toFinset.card : ℚ) ≤ 7/10 →
          (classifyHeuristic premise hypothesis).label = .neutral ∧
          (classifyHeuristic premise hypothesis).confidence = 1/2) ∧
        ((((tokenizeMin 3 premise).toFinset ∩ (tokenizeMin 3 hypothesis).toFinset).card : ℚ) /
            ((tokenizeMin 3 hypothesis).toFinset.card : ℚ) ≤ 2/5 →
          (classifyHeuristic premise hypothesis).label = .neutral ∧
          (classifyHeuristic premise hypothesis).confidence = 2/5)))) := by
  rw [classifyHeuristic_eq]
  set frac := (((tokenizeMin 3 premise).toFinset ∩ (tokenizeMin 3 hypothesis).toFinset).card : ℚ) /
    ((tokenizeMin 3 hypothesis).toFinset.card : ℚ) with hfrac
  by_cases hx : hasNegation premise = hasNegation hypothesis
  · have hbx : (hasNegation premise != hasNegation hypothesis) = false := by simp [hx]
    rw [hbx]
    simp only [Bool.false_eq_true, if_false]
    constructor
    · constructor
      · intro h
        exfalso
        by_cases he : (tokenizeMin 3 hypothesis).toFinset = ∅
        · rw [if_pos he] at h
          exact NLILabel.noConfusion h.1
        · rw [if_neg he] at h
          by_cases h7 : frac > 7/10
          · rw [if_pos h7] at h
            exact NLILabel.noConfusion h.1
          · rw [if_neg h7] at h
            by_cases h4 : frac > 2/5
            · rw [if_pos h4] at h
              exact NLILabel.noConfusion h.1
            · rw [if_neg h4] at h
              exact NLILabel.noConfusion h.1
      · intro h
        exact absurd hx h
    · intro _
      constructor
      · intro he
        rw [if_pos he]
        exact ⟨rfl, rfl⟩
      · intro he
        rw [if_neg he]
        refine ⟨?_, ?_, ?_⟩
        · intro h7
          rw [if_pos h7]
          exact ⟨rfl, by rw [mul_one]⟩
        · rintro ⟨h4, h7⟩
          rw [if_neg (not_lt.2 h7), if_pos h4]
          exact ⟨rfl, rfl⟩
        · intro h4
          have h7 : ¬ (frac > 7/10) := by intro hgt; rw [hfrac] at hgt; linarith
          have h4' : ¬ (frac > 2/5) := by intro hgt; rw [hfrac] at hgt; linarith
          rw [if_neg h7, if_neg h4']
          exact ⟨rfl, rfl⟩
  · have hbx : (hasNegation premise != hasNegation hypothesis) = true := by
      simp [bne_iff_ne, hx]
    rw [hbx]
    simp only [if_true]
    refine ⟨⟨fun _ => hx, fun _ => ⟨?_, ?_⟩⟩, fun h => absurd h hx⟩ <;> trivial

/-- Witness for C7 at the spec's example: the premise `x is permitted`
against the hypothesis `x is not permitted` has a negation-marker XOR and
classifies as contradiction with confidence 0.6. -/
theorem classify_heuristic_cases_witness :
    (classifyHeuristic "x is permitted" "x is not permitted").label = .contradiction ∧
    (classifyHeuristic "x is permitted" "x is not permitted").confidence = 3/5 := by
  exact (classify_heuristic_cases "x is permitted" "x is not permitted").1.2 (by decide)

/-! ### C6 -/

/-- `listMaxQ` of a non-empty list is an element of the list. -/
theorem listMaxQ_mem : ∀ (l : List ℚ), l ≠ [] → listMaxQ l ∈ l
  | [x], _ => by simp [listMaxQ]
  | x :: y :: xs, _ => by
    have ih := listMaxQ_mem (y :: xs) (List.cons_ne_nil _ _)
    rw [listMaxQ]
    rcases max_choice x (listMaxQ (y :: xs)) with h | h <;> rw [h]
    · exact List.mem_cons_self _ _
    · exact List.mem_cons_of_mem _ ih

/-- `listMaxQ` is an upper bound of the list. -/
theorem le_listMaxQ : ∀ (l : List ℚ), ∀ x ∈ l, x ≤ listMaxQ l
  | [x], y, hy => by
    simp at hy
    simp [listMaxQ, hy]
  | x :: y :: xs, z, hz => by
    rw [listMaxQ]
    rcases List.mem_cons.1 hz with h | h
    · rw [h]; exact le_max_left _ _
    · exact le_trans (le_listMaxQ (y :: xs) z h) (le_max_right _ _)

/-- C6: on a non-empty result list the aggregate's three component scores
are the means of the individual component scores; if some result is a
contradiction with confidence strictly above 0.6, the aggregate is a
contradiction whose confidence is the maximum confidence among
contradiction-labelled results; otherwise the aggregate label is a
majority-vote label (its count is at least every label's count) and the
aggregate confidence is the mean of the individual confidences. -/
theorem aggregate_results_spec (results : List NLIResult) (hne : results ≠ []) :
    ((aggregateResults results).entailment_score =
        (results.map (fun r => r.entailment_score)).sum / (results.length : ℚ) ∧
      (aggregateResults results).neutral_score =
        (results.map (fun r => r.neutral_score)).sum / (results.length : ℚ) ∧
      (aggregateResults results).contradiction_score =
        (results.map (fun r => r.contradiction_score)).sum / (results.length : ℚ)) ∧
    ((∃ r ∈ results, r.label = .contradiction ∧ r.confidence > 3/5) →
      (aggregateResults results).label = .contradiction ∧
      (aggregateResults results).confidence ∈
        (results.filter (fun r => r.label = .contradiction)).map (fun r => r.confidence) ∧
      ∀ c ∈ (results.filter (fun r => r.label = .contradiction)).map (fun r => r.confidence),
        c ≤ (aggregateResults results).confidence) ∧
    ((¬ ∃ r ∈ results, r.label = .contradiction ∧ r.confidence > 3/5) →
      ((results.countP (fun r => r.label = (aggregateResults results).label) ≥
          results.countP (fun r => r.label = .entailment) ∧
        results.countP (fun r => r.label = (aggregateResults results).label) ≥
          results.countP (fun r => r.label = .neutral) ∧
        results.countP (fun r => r.label = (aggregateResults results).label) ≥
          results.countP (fun r => r.label = .contradiction)) ∧
      (aggregateResults results).confidence =
        (results.map (fun r => r.confidence)).sum / (results.length : ℚ))) := by
  have hnem : results.isEmpty = false := by
    cases results with
    | nil => exact absurd rfl hne
    | cons a l => rfl
  have hsticky : (results.any (fun r => r.label = .contradiction && r.confidence > 3/5)) = true ↔
      ∃ r ∈ results, r.label = .contradiction ∧ r.confidence > 3/5 := by
    rw [List.any_eq_true]
    constructor
    · rintro ⟨r, hr, hb⟩
      rw [Bool.and_eq_true, decide_eq_true_eq, decide_eq_true_eq] at hb
      exact ⟨r, hr, hb.1, hb.2⟩
    · rintro ⟨r, hr, h1, h2⟩
      exact ⟨r, hr, by rw [Bool.and_eq_true, decide_eq_true_eq, decide_eq_true_eq]; exact ⟨h1, h2⟩⟩
  by_cases hs : ∃ r ∈ results, r.label = .contradiction ∧ r.confidence > 3/5
  · have hb : (results.any (fun r => r.label = .contradiction && r.confidence > 3/5)) = true :=
      hsticky.2 hs
    have hfilt : (results.filter (fun r => r.label = .contradiction)).map
        (fun r => r.confidence) ≠ [] := by
      obtain ⟨r, hr, h1, -⟩ := hs
      have : r ∈ results.filter (fun r => r.label = .contradiction) := by
        rw [List.mem_filter]
        exact ⟨hr, by rw [decide_eq_true_eq]; exact h1⟩
      intro hnil
      rw [List.map_eq_nil_iff] at hnil
      rw [hnil] at this
      exact List.not_mem_nil r this
    refine ⟨?_, ?_, ?_⟩
    · simp only [aggregateResults, hnem, Bool.false_eq_true, if_false, hb, if_true]
      refine ⟨?_, ?_, ?_⟩ <;> trivial
    · intro _
      simp only [aggregateResults, hnem, Bool.false_eq_true, if_false, hb, if_true]
      exact ⟨by trivial, listMaxQ_mem _ hfilt, le_listMaxQ _⟩
    · intro h
      exact absurd hs h
  · have hb : (results.any (fun r => r.label = .contradiction && r.confidence > 3/5)) = false := by
      rw [← Bool.not_eq_true, hsticky]
      exact hs
    refine ⟨?_, fun h => absurd h hs, ?_⟩
    · simp only [aggregateResults, hnem, Bool.false_eq_true, if_false, hb]
      refine ⟨?_, ?_, ?_⟩ <;> trivial
    · intro _
      simp only [aggregateResults, hnem, Bool.false_eq_true, if_false, hb]
      refine ⟨?_, by trivial⟩
      set ce := results.countP (fun r => r.label = .entailment) with hce
      set cn := results.countP (fun r => r.label = .neutral) with hcn
      set cc := results.countP (fun r => r.label = .contradiction) with hcc
      by_cases h1 : ce ≥ cn ∧ ce ≥ cc
      · rw [if_pos h1]
        exact ⟨le_refl _, h1.1, h1.2⟩
      · rw [if_neg h1]
        by_cases h2 : cn ≥ cc
        · rw [if_pos h2]
          rw [not_and_or] at h1
          rcases h1 with h1 | h1
          · exact ⟨le_of_not_le h1, le_refl _, h2⟩
          · constructor
            · by_contra hlt
              rw [not_le] at hlt
              exact h1 (le_trans h2 (le_of_lt hlt))
            · exact ⟨le_refl _, h2⟩
        · rw [if_neg h2]
          rw [not_le] at h2
          rw [not_and_or] at h1
          have hcnc : cn ≤ cc := le_of_lt h2
          rcases h1 with h1 | h1
          · exact ⟨le_trans (le_of_not_le h1) hcnc, hcnc, le_refl _⟩
          · exact ⟨le_of_not_le h1, hcnc, le_refl _⟩

/-- Witness for C6 at a singleton high-confidence contradiction result:
the aggregate is a contradiction at that confidence, and the component
scores are the (trivial) means. -/
theorem aggregate_results_spec_witness :
    (aggregateResults [nliContradictionHigh]).label = NLILabel.contradiction ∧
    (aggregateResults [nliContradictionHigh]).entailment_score =
      ([nliContradictionHigh].map (fun r => r.entailment_score)).sum / 1 := by
  have h := aggregate_results_spec [nliContradictionHigh] (List.cons_ne_nil _ _)
  refine ⟨(h.2.1 ⟨_, List.mem_singleton.2 rfl, rfl, by norm_num [nliContradictionHigh]⟩).1, ?_⟩
  have h2 := h.1.1
  simpa using h2

/-! ### C8 -/

/-- Merging an empty modification map is the identity on the baseline
facts. -/
theorem pyMergeFacts_nil (baseline : List (String × String)) :
    pyMergeFacts baseline [] = baseline := by
  simp [pyMergeFacts, List.lookup]

/-- C8 counterexample: when the engine decision is `None`, the baseline
activity normalises it to the string `unknown`, and the counterfactual
activity with no modified facts then compares `None != "unknown"` and
reports `differs_from_baseline = true` with a non-empty difference list —
the claim's `differs_from_baseline=false`, `key_differences=[]` fails. -/
theorem counterfactual_empty_diff_counterexample :
    (analyzeCounterfactualActivity engineEvalDecisionNone "r-1" [] "s-1" "threshold" "d" []
        ((evaluateBaselineActivity engineEvalDecisionNone "r-1" []).decision)).differs_from_baseline
      = true ∧
    (analyzeCounterfactualActivity engineEvalDecisionNone "r-1" [] "s-1" "threshold" "d" []
        ((evaluateBaselineActivity engineEvalDecisionNone "r-1" []).decision)).key_differences
      = ["Decision changed from unknown to None"] := by
  constructor <;> rfl

/-- C8 (amended): whenever the engine produces a non-null, non-empty
decision string for the baseline facts, `analyze_counterfactual_activity`
with `modified_facts = {}` and the baseline activity's decision returns
`differs_from_baseline = false` and `key_differences = []`. -/
theorem counterfactual_empty_diff_is_baseline
    (engineEvaluate : String → List (String × String) → EngineEvalResult)
    (rule_id : String) (facts : List (String × String))
    (scenario_id scenario_type description : String) (d : String)
    (hdec : (engineEvaluate rule_id facts).decision = some d) (hne : d ≠ "") :
    (analyzeCounterfactualActivity engineEvaluate rule_id facts scenario_id scenario_type
        description [] ((evaluateBaselineActivity engineEvaluate rule_id facts).decision)).differs_from_baseline
      = false ∧
    (analyzeCounterfactualActivity engineEvaluate rule_id facts scenario_id scenario_type
        description [] ((evaluateBaselineActivity engineEvaluate rule_id facts).decision)).key_differences
      = [] := by
  have hbase : (evaluateBaselineActivity engineEvaluate rule_id facts).decision = d := by
    simp [evaluateBaselineActivity, hdec, decisionOrUnknown, hne]
  have hdiff : decisionDiffers (engineEvaluate rule_id (pyMergeFacts facts [])).decision
      ((evaluateBaselineActivity engineEvaluate rule_id facts).decision) = false := by
    rw [pyMergeFacts_nil, hbase, hdec]
    simp [decisionDiffers]
  constructor
  · simp only [analyzeCounterfactualActivity]
    rw [hdiff]
  · simp only [analyzeCounterfactualActivity]
    rw [hdiff]
    simp [factDiffMessages]

/-- Witness for C8 (amended) at the stub engine whose decision is the
non-empty string `permitted`. -/
theorem counterfactual_empty_diff_is_baseline_witness :
    (analyzeCounterfactualActivity engineEvalDecisionPermitted "r-1" [] "s-1" "threshold" "d" []
        ((evaluateBaselineActivity engineEvalDecisionPermitted "r-1" []).decision)).differs_from_baseline
      = false ∧
    (analyzeCounterfactualActivity engineEvalDecisionPermitted "r-1" [] "s-1" "threshold" "d" []
        ((evaluateBaselineActivity engineEvalDecisionPermitted "r-1" []).decision)).key_differences
      = [] := by
  exact counterfactual_empty_diff_is_baseline engineEvalDecisionPermitted "r-1" [] "s-1"
    "threshold" "d" "permitted" rfl (by decide)

/-! ### C9 -/

/-- Fuelled form of the batched-sweep unfolding. -/
theorem driftBatches_eq_map_aux (check : String → RuleDriftResult) :
    ∀ (n : ℕ) (ids : List String), ids.length ≤ n → driftBatches check ids = ids.map check := by
  intro n
  induction n with
  | zero =>
    intro ids h
    cases ids with
    | nil => rw [driftBatches]; rfl
    | cons x xs => simp at h
  | succ n ih =>
    intro ids h
    cases ids with
    | nil => rw [driftBatches]; rfl
    | cons x xs =>
      rw [driftBatches]
      simp only [List.isEmpty_cons, Bool.false_eq_true, if_false]
      rw [ih ((x :: xs).drop 10) (by simp [List.length_drop]; simp at h; omega)]
      rw [← List.map_append, List.take_append_drop]

/-- The batched sweep visits every resolved rule exactly once, in order. -/
theorem driftBatches_eq_map (check : String → RuleDriftResult) (ids : List String) :
    driftBatches check ids = ids.map check :=
  driftBatches_eq_map_aux check ids.length ids le_rfl

/-- C9: the drift sweep completes with status `completed` and one
drift-result entry per resolved rule id; a rule whose store lookup fails is
converted into a critical `rule_missing` drift-result entry for that rule
(present in `drift_results` alongside every other rule's entry) instead of
failing the workflow. -/
theorem drift_detection_isolates_rule_failures (inp : DriftDetectionInput)
    (allRuleIds : List String) (ruleFound : String → Bool)
    (tier0Evidence : String → List ConsistencyEvidence) :
    (driftDetectionRun inp allRuleIds ruleFound tier0Evidence).status = .completed ∧
    (driftDetectionRun inp allRuleIds ruleFound tier0Evidence).drift_results =
      (resolveDriftRuleIds inp allRuleIds).map
        (fun rid => checkRuleDriftActivity rid (ruleFound rid) (tier0Evidence rid)) ∧
    (driftDetectionRun inp allRuleIds ruleFound tier0Evidence).rules_checked =
      (resolveDriftRuleIds inp allRuleIds).length ∧
    ∀ rid ∈ resolveDriftRuleIds inp allRuleIds, ruleFound rid = false →
      checkRuleDriftActivity rid (ruleFound rid) (tier0Evidence rid) ∈
        (driftDetectionRun inp allRuleIds ruleFound tier0Evidence).drift_results ∧
      (checkRuleDriftActivity rid (ruleFound rid) (tier0Evidence rid)).has_drift = true ∧
      (checkRuleDriftActivity rid (ruleFound rid) (tier0Evidence rid)).drift_types =
        ["rule_missing"] ∧
      (checkRuleDriftActivity rid (ruleFound rid) (tier0Evidence rid)).severity = "critical" := by
  have hmap : (driftDetectionRun inp allRuleIds ruleFound tier0Evidence).drift_results =
      (resolveDriftRuleIds inp allRuleIds).map
        (fun rid => checkRuleDriftActivity rid (ruleFound rid) (tier0Evidence rid)) := by
    simp only [driftDetectionRun]
    exact driftBatches_eq_map _ _
  refine ⟨rfl, hmap, ?_, ?_⟩
  · simp only [driftDetectionRun]
    rw [driftBatches_eq_map, List.length_map]
  · intro rid hrid hfail
    refine ⟨?_, ?_, ?_, ?_⟩
    · rw [hmap]
      exact List.mem_map_of_mem _ hrid
    · rw [checkRuleDriftActivity, hfail]; rfl
    · rw [checkRuleDriftActivity, hfail]; rfl
    · rw [checkRuleDriftActivity, hfail]; rfl

/-- Witness for C9: a two-rule sweep in which the id `missing` fails the
lookup still completes with both entries, the failing one a critical
`rule_missing` result. -/
theorem drift_detection_isolates_rule_failures_witness :
    (driftDetectionRun { rule_ids := some ["ok-rule", "missing"], notify_on_drift := false }
        [] lookupAllButMissing (fun _ => [])).status = WorkflowStatus.completed ∧
    (checkRuleDriftActivity "missing" (lookupAllButMissing "missing") []).drift_types =
      ["rule_missing"] := by
  have h := drift_detection_isolates_rule_failures
    { rule_ids := some ["ok-rule", "missing"], notify_on_drift := false }
    [] lookupAllButMissing (fun _ => [])
  exact ⟨h.1, (h.2.2.2 "missing" (by simp [resolveDriftRuleIds]) (by decide)).2.2.1⟩

/-! ### C10 -/

/-- C10: when the rule loads and every tier in range is pre-declared
skipped (the set of tiers to execute is empty), the run still reaches
status `completed`, with `tier_results` empty, `overall_score = 0`,
`overall_passed = true` (vacuous conjunction), `highest_tier_passed` null
and `stopped_early = false`. -/
theorem rule_verification_all_skipped (inp : RuleVerificationInput)
    (outcome : ℕ → TierResult) (sigs : List (List ℕ))
    (hskip : ∀ t ∈ allTiers, t ≤ inp.max_tier → t ∈ inp.skip_tiers) :
    (ruleVerificationRun inp none outcome sigs).status = .completed ∧
    (ruleVerificationRun inp none outcome sigs).tier_results = [] ∧
    (ruleVerificationRun inp none outcome sigs).overall_score = 0 ∧
    (ruleVerificationRun inp none outcome sigs).overall_passed = true ∧
    (ruleVerificationRun inp none outcome sigs).highest_tier_passed = none ∧
    (ruleVerificationRun inp none outcome sigs).stopped_early = false := by
  have hrun : tiersToRun inp = [] := by
    rw [tiersToRun, List.filter_eq_nil_iff]
    intro t ht
    by_cases hle : t ≤ inp.max_tier
    · have := hskip t ht hle
      simp [this]
    · simp [hle]
  simp only [ruleVerificationRun, hrun, tierLoop]
  refine ⟨?_, ?_, ?_, ?_, ?_, ?_⟩ <;> trivial

/-- Witness for C10: all five tiers pre-declared skipped. -/
theorem rule_verification_all_skipped_witness :
    (ruleVerificationRun
        { rule_id := "r-1", source_text := none, max_tier := 4,
          skip_tiers := [0, 1, 2, 3, 4], fail_fast := true }
        none tierOutcomeAllPass []).status = WorkflowStatus.completed ∧
    (ruleVerificationRun
        { rule_id := "r-1", source_text := none, max_tier := 4,
          skip_tiers := [0, 1, 2, 3, 4], fail_fast := true }
        none tierOutcomeAllPass []).tier_results = [] ∧
    (ruleVerificationRun
        { rule_id := "r-1", source_text := none, max_tier := 4,
          skip_tiers := [0, 1, 2, 3, 4], fail_fast := true }
        none tierOutcomeAllPass []).overall_passed = true := by
  have h := rule_verification_all_skipped
    { rule_id := "r-1", source_text := none, max_tier := 4,
      skip_tiers := [0, 1, 2, 3, 4], fail_fast := true }
    tierOutcomeAllPass [] (by decide)
  exact ⟨h.1, h.2.1, h.2.2.2.1⟩

/-! ### C1 -/

/-- A cons with a non-empty tail keeps the tail's last element. -/
theorem getLast?_cons_ne_nil {α : Type} (x : α) (l : List α) (h : l ≠ []) :
    (x :: l).getLast? = l.getLast? := by
  cases l with
  | nil => exact absurd rfl h
  | cons a t => exact List.getLast?_cons_cons

/-- The tiers of the loop's results form a sublist of the iteration
snapshot. -/
theorem tierLoop_tiers_sublist (ff : Bool) (outcome : ℕ → TierResult)
    (hout : ∀ t, (outcome t).tier = t) :
    ∀ (iter : List ℕ) (sigs : List (List ℕ)) (skips : List ℕ),
      List.Sublist ((tierLoop ff outcome iter sigs skips).1.map (fun r => r.tier)) iter := by
  intro iter
  induction iter with
  | nil =>
    intro sigs skips
    rw [tierLoop]
    simp
  | cons t rest ih =>
    intro sigs skips
    rw [tierLoop]
    by_cases hmem : t ∈ skips ++ sigs.headD []
    · rw [if_pos hmem]
      exact (ih _ _).cons t
    · rw [if_neg hmem]
      by_cases hf : (ff && !(outcome t).passed) = true
      · rw [if_pos hf]
        simp only [List.map_cons, List.map_nil, hout t]
        exact (List.nil_sublist rest).cons₂ t
      · rw [if_neg hf]
        simp only [List.map_cons, hout t]
        exact (ih _ _).cons₂ t

/-- Structure of the fail-fast loop: either no executed tier failed (no
early stop, no stop reason, every result passed), or the loop stopped
early, the last result is the failing one, every earlier result passed, and
the stop reason names the failing tier. -/
theorem tierLoop_failFast_structure (outcome : ℕ → TierResult)
    (hout : ∀ t, (outcome t).tier = t) :
    ∀ (iter : List ℕ) (sigs : List (List ℕ)) (skips : List ℕ),
      ((tierLoop true outcome iter sigs skips).2.1 = false ∧
        (tierLoop true outcome iter sigs skips).2.2 = none ∧
        ∀ r ∈ (tierLoop true outcome iter sigs skips).1, r.passed = true) ∨
      ((tierLoop true outcome iter sigs skips).2.1 = true ∧
        ∃ rf, (tierLoop true outcome iter sigs skips).1.getLast? = some rf ∧
          rf.passed = false ∧
          (tierLoop true outcome iter sigs skips).2.2 =
            some (stopMessage rf.tier rf.tier_name) ∧
          ∀ r ∈ (tierLoop true outcome iter sigs skips).1.dropLast, r.passed = true) := by
  intro iter
  induction iter with
  | nil =>
    intro sigs skips
    rw [tierLoop]
    exact Or.inl ⟨rfl, rfl, fun r hr => absurd hr (List.not_mem_nil r)⟩
  | cons t rest ih =>
    intro sigs skips
    rw [tierLoop]
    by_cases hmem : t ∈ skips ++ sigs.headD []
    · rw [if_pos hmem]
      exact ih _ _
    · rw [if_neg hmem]
      by_cases hf : (true && !(outcome t).passed) = true
      · rw [if_pos hf]
        refine Or.inr ⟨rfl, outcome t, rfl, ?_, ?_, ?_⟩
        · rw [Bool.true_and, Bool.not_eq_true'] at hf
          exact hf
        · rw [hout t]
        · intro r hr
          simp at hr
      · rw [if_neg hf]
        have hfp : (outcome t).passed = true := by simpa using hf
        rcases ih sigs.tail (skips ++ sigs.headD []) with ⟨h1, h2, h3⟩ | ⟨h1, rf, h2, h3, h4, h5⟩
        · refine Or.inl ⟨h1, h2, ?_⟩
          intro r hr
          rcases List.mem_cons.1 hr with h | h
          · rw [h]; exact hfp
          · exact h3 r h
        · have hnil : (tierLoop true outcome rest sigs.tail (skips ++ sigs.headD [])).1 ≠ [] := by
            intro hn
            rw [hn] at h2
            simp at h2
          refine Or.inr ⟨h1, rf, ?_, h3, h4, ?_⟩
          · rw [getLast?_cons_ne_nil _ _ hnil]
            exact h2
          · rw [List.dropLast_cons_of_ne_nil hnil]
            intro r hr
            rcases List.mem_cons.1 hr with h | h
            · rw [h]; exact hfp
            · exact h5 r h

/-- C1: with `fail_fast=true`, any failing executed tier ends the run: the
workflow stops early, the stop reason names the failing tier, the failing
tier's result is the last entry of `tier_results`, every earlier entry
passed, and a failing tier 0 leaves exactly one tier result. -/
theorem rule_verification_fail_fast_stops (inp : RuleVerificationInput)
    (outcome : ℕ → TierResult) (sigs : List (List ℕ))
    (hff : inp.fail_fast = true) (hout : ∀ t, (outcome t).tier = t)
    (r : TierResult) (hr : r ∈ (ruleVerificationRun inp none outcome sigs).tier_results)
    (hfail : r.passed = false) :
    (ruleVerificationRun inp none outcome sigs).stopped_early = true ∧
    (ruleVerificationRun inp none outcome sigs).stop_reason =
      some (stopMessage r.tier r.tier_name) ∧
    (ruleVerificationRun inp none outcome sigs).tier_results.getLast? = some r ∧
    (∀ r' ∈ (ruleVerificationRun inp none outcome sigs).tier_results.dropLast,
      r'.passed = true) ∧
    (r.tier = 0 → (ruleVerificationRun inp none outcome sigs).tier_results.length = 1) := by
  have hres : (ruleVerificationRun inp none outcome sigs).tier_results =
      (tierLoop inp.fail_fast outcome (tiersToRun inp) sigs inp.skip_tiers).1 := rfl
  have hse : (ruleVerificationRun inp none outcome sigs).stopped_early =
      (tierLoop inp.fail_fast outcome (tiersToRun inp) sigs inp.skip_tiers).2.1 := rfl
  have hsr : (ruleVerificationRun inp none outcome sigs).stop_reason =
      (tierLoop inp.fail_fast outcome (tiersToRun inp) sigs inp.skip_tiers).2.2 := rfl
  rw [hres] at hr
  rw [hff] at hr
  rcases tierLoop_failFast_structure outcome hout (tiersToRun inp) sigs inp.skip_tiers with
    ⟨-, -, h3⟩ | ⟨h1, rf, h2, h3, h4, h5⟩
  · rw [h3 r hr] at hfail
    exact absurd hfail (by simp)
  · set looped := (tierLoop true outcome (tiersToRun inp) sigs inp.skip_tiers).1 with hlooped
    have hnil : looped ≠ [] := by
      intro hn
      rw [hn] at h2
      simp at h2
    have hdecomp : looped.dropLast ++ [rf] = looped :=
      List.dropLast_append_getLast? rf h2
    have hreq : r = rf := by
      rcases List.mem_append.1 (by rw [hdecomp]; exact hr) with h | h
      · rw [h5 r h] at hfail
        exact absurd hfail (by simp)
      · simpa using h
    subst hreq
    refine ⟨?_, ?_, ?_, ?_, ?_⟩
    · rw [hse, hff]; exact h1
    · rw [hsr, hff]; exact h4
    · rw [hres, hff]; exact h2
    · rw [hres, hff]; exact h5
    · intro htier
      have hgoal : (ruleVerificationRun inp none outcome sigs).tier_results = looped := by
        rw [hres, hff]
      rw [hgoal]
      have hsub : List.Sublist (looped.map (fun x => x.tier)) (tiersToRun inp) :=
        tierLoop_tiers_sublist true outcome hout (tiersToRun inp) sigs inp.skip_tiers
      have hsub2 : List.Sublist (tiersToRun inp) allTiers := List.filter_sublist _
      have hpw_all : allTiers.Pairwise (· < ·) := by
        simp [allTiers]
      have hpw : (looped.map (fun x => x.tier)).Pairwise (· < ·) :=
        hpw_all.sublist (hsub.trans hsub2)
      rw [← hdecomp, List.map_append, List.pairwise_append] at hpw
      cases hdl : looped.dropLast with
      | nil =>
        have hsng : looped = [r] := by rw [← hdecomp, hdl]; rfl
        rw [hsng]
        rfl
      | cons a l =>
        exfalso
        have ha : a.tier ∈ (looped.dropLast).map (fun x => x.tier) := by
          rw [hdl]
          exact List.mem_map_of_mem _ (List.mem_cons_self a l)
        have := hpw.2.2 a.tier ha r.tier (by simp)
        rw [htier] at this
        exact Nat.not_lt_zero _ this

/-- Witness for C1: with every tier failing, tier 0 fails immediately and
the run records exactly one tier result and an early stop. -/
theorem rule_verification_fail_fast_stops_witness :
    (ruleVerificationRun rvDefaultInput none tierOutcomeAllFail []).stopped_early = true ∧
    (ruleVerificationRun rvDefaultInput none tierOutcomeAllFail []).tier_results.length = 1 := by
  have hres0 : (ruleVerificationRun rvDefaultInput none tierOutcomeAllFail []).tier_results =
      [tierOutcomeAllFail 0] := rfl
  have h := rule_verification_fail_fast_stops rvDefaultInput tierOutcomeAllFail []
    rfl (fun t => rfl) (tierOutcomeAllFail 0)
    (by rw [hres0]; exact List.mem_singleton.2 rfl) rfl
  exact ⟨h.1, h.2.2.2.2 rfl⟩

/-! ### C2 -/

/-- A tier already in the skip set when the loop reaches any point is never
executed afterwards (the skip set only grows). -/
theorem tierLoop_skip_persists (ff : Bool) (outcome : ℕ → TierResult)
    (hout : ∀ t, (outcome t).tier = t) :
    ∀ (iter : List ℕ) (sigs : List (List ℕ)) (skips : List ℕ) (t : ℕ), t ∈ skips →
      ∀ r ∈ (tierLoop ff outcome iter sigs skips).1, r.tier ≠ t := by
  intro iter
  induction iter with
  | nil =>
    intro sigs skips t ht r hr
    rw [tierLoop] at hr
    exact absurd hr (List.not_mem_nil r)
  | cons t' rest ih =>
    intro sigs skips t ht r hr
    rw [tierLoop] at hr
    have ht' : t ∈ skips ++ sigs.headD [] := List.mem_append_left _ ht
    by_cases hmem : t' ∈ skips ++ sigs.headD []
    · rw [if_pos hmem] at hr
      exact ih _ _ t ht' r hr
    · rw [if_neg hmem] at hr
      have hne : t' ≠ t := fun h => hmem (h ▸ ht')
      by_cases hf : (ff && !(outcome t').passed) = true
      · rw [if_pos hf] at hr
        have : r = outcome t' := by simpa using hr
        rw [this, hout t']
        exact hne
      · rw [if_neg hf] at hr
        rcases List.mem_cons.1 hr with h | h
        · rw [h, hout t']
          exact hne
        · exact ih _ _ t ht' r h

/-- A tier signalled at step `j`, no later than the step at which the loop
would reach it, is never executed. -/
theorem tierLoop_signal_skip (ff : Bool) (outcome : ℕ → TierResult)
    (hout : ∀ t, (outcome t).tier = t) :
    ∀ (iter : List ℕ) (sigs : List (List ℕ)) (skips : List ℕ) (t : ℕ) (j : ℕ),
      t ∈ sigs.getD j [] → j ≤ iter.indexOf t →
      ∀ r ∈ (tierLoop ff outcome iter sigs skips).1, r.tier ≠ t := by
  intro iter
  induction iter with
  | nil =>
    intro sigs skips t j _ _ r hr
    rw [tierLoop] at hr
    exact absurd hr (List.not_mem_nil r)
  | cons t' rest ih =>
    intro sigs skips t j hsig hj r hr
    rw [tierLoop] at hr
    cases j with
    | zero =>
      have hskips' : t ∈ skips ++ sigs.headD [] := by
        refine List.mem_append_right _ ?_
        cases sigs with
        | nil => simp at hsig
        | cons s srest => simpa using hsig
      by_cases hmem : t' ∈ skips ++ sigs.headD []
      · rw [if_pos hmem] at hr
        exact tierLoop_skip_persists ff outcome hout _ _ _ t hskips' r hr
      · rw [if_neg hmem] at hr
        have hne : t' ≠ t := fun h => hmem (h ▸ hskips')
        by_cases hf : (ff && !(outcome t').passed) = true
        · rw [if_pos hf] at hr
          have : r = outcome t' := by simpa using hr
          rw [this, hout t']
          exact hne
        · rw [if_neg hf] at hr
          rcases List.mem_cons.1 hr with h | h
          · rw [h, hout t']
            exact hne
          · exact tierLoop_skip_persists ff outcome hout _ _ _ t hskips' r h
    | succ j' =>
      have hne : t' ≠ t := by
        intro h
        rw [h, List.indexOf_cons_self] at hj
        exact absurd hj (by omega)
      have hj' : j' ≤ rest.indexOf t := by
        rw [List.indexOf_cons_ne _ hne] at hj
        omega
      have hsig' : t ∈ sigs.tail.getD j' [] := by
        cases sigs with
        | nil => simp at hsig
        | cons s srest => simpa using hsig
      by_cases hmem : t' ∈ skips ++ sigs.headD []
      · rw [if_pos hmem] at hr
        exact ih _ _ t j' hsig' hj' r hr
      · rw [if_neg hmem] at hr
        by_cases hf : (ff && !(outcome t').passed) = true
        · rw [if_pos hf] at hr
          have : r = outcome t' := by simpa using hr
          rw [this, hout t']
          exact hne
        · rw [if_neg hf] at hr
          rcases List.mem_cons.1 hr with h | h
          · rw [h, hout t']
            exact hne
          · exact ih _ _ t j' hsig' hj' r h

/-- C2: a tier that is in the skip set when its turn arrives — either
pre-declared in the input's `skip_tiers`, or added by a `skip_tier` signal
delivered no later than the step at which the loop reaches that tier —
contributes no entry to `tier_results`; `overall_score` is the mean of the
executed tiers' scores only, and `overall_passed` the conjunction of the
executed tiers' passed flags only. -/
theorem rule_verification_skipped_tier_excluded (inp : RuleVerificationInput)
    (outcome : ℕ → TierResult) (sigs : List (List ℕ))
    (hout : ∀ t, (outcome t).tier = t) (t : ℕ)
    (hskip : t ∈ inp.skip_tiers ∨
      ∃ j, t ∈ sigs.getD j [] ∧ j ≤ (tiersToRun inp).indexOf t) :
    (∀ r ∈ (ruleVerificationRun inp none outcome sigs).tier_results, r.tier ≠ t) ∧
    (ruleVerificationRun inp none outcome sigs).overall_score =
      (if (ruleVerificationRun inp none outcome sigs).tier_results.length = 0 then 0
       else ((ruleVerificationRun inp none outcome sigs).tier_results.map
          (fun r => r.score)).sum /
        ((ruleVerificationRun inp none outcome sigs).tier_results.length : ℚ)) ∧
    (ruleVerificationRun inp none outcome sigs).overall_passed =
      (ruleVerificationRun inp none outcome sigs).tier_results.all (fun r => r.passed) := by
  have hres : (ruleVerificationRun inp none outcome sigs).tier_results =
      (tierLoop inp.fail_fast outcome (tiersToRun inp) sigs inp.skip_tiers).1 := rfl
  refine ⟨?_, rfl, rfl⟩
  intro r hr
  rw [hres] at hr
  rcases hskip with h | ⟨j, hsig, hj⟩
  · exact tierLoop_skip_persists inp.fail_fast outcome hout _ _ _ t h r hr
  · exact tierLoop_signal_skip inp.fail_fast outcome hout _ _ _ t j hsig hj r hr

/-- Witness for C2: with tier 2 pre-declared skipped and every tier
passing, no recorded tier result has tier 2. -/
theorem rule_verification_skipped_tier_excluded_witness :
    ((ruleVerificationRun rvSkip2Input none tierOutcomeAllPass []).tier_results.all
      (fun r => r.tier != 2)) = true := by
  have h := (rule_verification_skipped_tier_excluded rvSkip2Input tierOutcomeAllPass []
    (fun t => rfl) 2 (Or.inl (by simp [rvSkip2Input]))).1
  rw [List.all_eq_true]
  intro r hr
  have hne := h r hr
  simpa using hne

/-! ### C5 -/

/-- Pointwise product form of the zipped dot product over a common index
list. -/
theorem zipWith_mul_map {α : Type} (f g : α → ℝ) :
    ∀ l : List α,
      List.zipWith (fun a b => a * b) (l.map f) (l.map g) = l.map (fun t => f t * g t) := by
  intro l
  induction l with
  | nil => rfl
  | cons x xs ih => simp [ih]

/-- Cosine similarity of a vector with itself is 1 when the squared norm is
positive. -/
theorem cosineSimilarity_self (v : List ℝ) (h : 0 < (v.map (fun a => a * a)).sum) :
    cosineSimilarity v v = 1 := by
  unfold cosineSimilarity
  have hd : (List.zipWith (fun a b => a * b) v v).sum = (v.map (fun a => a * a)).sum := by
    have : List.zipWith (fun a b => a * b) v v = v.map (fun a => a * a) := by
      induction v with
      | nil => rfl
      | cons x xs ih => simp [ih]
    rw [this]
  have hsq : Real.sqrt ((v.map (fun a => a * a)).sum) ≠ 0 := by
    rw [ne_eq, Real.sqrt_eq_zero (le_of_lt h)]
    exact ne_of_gt h
  rw [if_neg (by push_neg; exact ⟨hsq, hsq⟩)]
  rw [hd, Real.mul_self_sqrt (le_of_lt h)]
  exact div_self (ne_of_gt h)

/-- Over the union vocabulary of a single document with itself, every term
has document frequency 2, so the smoothed IDF is exactly 1. -/
theorem idfOf_self (tokens : List String) (t : String) (ht : t ∈ tokens) :
    idfOf tokens tokens t = 1 := by
  unfold idfOf
  rw [if_pos ht]
  norm_num

/-- Let-free unfolding of `tfidfOverlap`. -/
theorem tfidfOverlap_eq (tokens1 tokens2 : List String) :
    tfidfOverlap tokens1 tokens2 =
      if (unionVocabulary tokens1 tokens2).isEmpty then 0
      else
        cosineSimilarity
          ((unionVocabulary tokens1 tokens2).map
            (fun t => (tokens1.count t : ℝ) * idfOf tokens1 tokens2 t))
          ((unionVocabulary tokens1 tokens2).map
            (fun t => (tokens2.count t : ℝ) * idfOf tokens1 tokens2 t)) := rfl

/-- Let-free unfolding of `jaccardSimilarity`. -/
theorem jaccardSimilarity_eq (tokens1 tokens2 : List String) :
    jaccardSimilarity tokens1 tokens2 =
      if tokens1.toFinset = ∅ ∧ tokens2.toFinset = ∅ then 0
      else ((tokens1.toFinset ∩ tokens2.toFinset).card : ℚ) /
        ((tokens1.toFinset ∪ tokens2.toFinset).card : ℚ) := rfl

/-- TF-IDF cosine overlap of a non-empty token list with itself is 1. -/
theorem tfidfOverlap_self (tokens : List String) (h : tokens ≠ []) :
    tfidfOverlap tokens tokens = 1 := by
  rw [tfidfOverlap_eq]
  have hmem : ∀ t ∈ unionVocabulary tokens tokens, t ∈ tokens := by
    intro t ht
    rw [unionVocabulary, List.mem_dedup, List.mem_append, or_self] at ht
    exact ht
  have hvne : unionVocabulary tokens tokens ≠ [] := by
    cases tokens with
    | nil => exact absurd rfl h
    | cons x xs =>
      intro hnil
      have : x ∈ unionVocabulary (x :: xs) (x :: xs) := by
        rw [unionVocabulary, List.mem_dedup, List.mem_append]
        exact Or.inl (List.mem_cons_self x xs)
      rw [hnil] at this
      exact List.not_mem_nil x this
  have hne : (unionVocabulary tokens tokens).isEmpty = false := by
    cases hv : unionVocabulary tokens tokens with
    | nil => exact absurd hv hvne
    | cons a l => rfl
  rw [hne]
  simp only [Bool.false_eq_true, if_false]
  apply cosineSimilarity_self
  rw [List.map_map]
  apply List.sum_pos
  · intro x hx
    rw [List.mem_map] at hx
    obtain ⟨t, ht, rfl⟩ := hx
    have htok : t ∈ tokens := hmem t ht
    have hcount : 0 < (tokens.count t : ℝ) := by
      have := List.count_pos_iff.2 htok
      exact_mod_cast this
    have hidf := idfOf_self tokens t htok
    simp only [Function.comp]
    rw [hidf, mul_one]
    exact mul_pos hcount hcount
  · intro hnil
    rw [List.map_eq_nil_iff] at hnil
    exact hvne hnil

/-- The `n`-gram set is non-empty once the text has at least `n`
characters. -/
theorem charNgrams_nonempty (cs : List Char) (n : ℕ) (h : n ≤ cs.length) :
    (charNgrams cs n).Nonempty := by
  refine ⟨(cs.drop 0).take n, ?_⟩
  rw [charNgrams, List.mem_toFinset, List.mem_map]
  exact ⟨0, List.mem_range.2 (by omega), rfl⟩

/-- The per-`n` Jaccard contribution of a text with itself is 1 when the
text has at least `n` characters. -/
theorem ngramJaccardAt_self (cs : List Char) (n : ℕ) (h : n ≤ cs.length) :
    ngramJaccardAt cs cs n = 1 := by
  have hne := charNgrams_nonempty cs n h
  rw [ngramJaccardAt, if_pos ⟨hne, hne⟩, Finset.inter_self, Finset.union_self]
  exact div_self (by exact_mod_cast Finset.card_ne_zero_of_mem hne.choose_spec)

/-- Token-set Jaccard of a non-empty token list with itself is 1. -/
theorem jaccardSimilarity_self (tokens : List String) (h : tokens ≠ []) :
    jaccardSimilarity tokens tokens = 1 := by
  have hne : tokens.toFinset ≠ ∅ := by
    cases tokens with
    | nil => exact absurd rfl h
    | cons x xs =>
      intro hnil
      have : x ∈ (x :: xs).toFinset := List.mem_toFinset.2 (List.mem_cons_self x xs)
      rw [hnil] at this
      exact Finset.not_mem_empty x this
  rw [jaccardSimilarity_eq]
  rw [if_neg (by intro hand; exact hne hand.1), Finset.inter_self, Finset.union_self]
  refine div_self ?_
  have : tokens.toFinset.card ≠ 0 := by
    intro hc
    exact hne (Finset.card_eq_zero.1 hc)
  exact_mod_cast this

/-- Let-free unfolding of `cosineSimilarity`. -/
theorem cosineSimilarity_eq (vec1 vec2 : List ℝ) :
    cosineSimilarity vec1 vec2 =
      if Real.sqrt ((vec1.map (fun a => a * a)).sum) = 0 ∨
          Real.sqrt ((vec2.map (fun b => b * b)).sum) = 0 then 0
      else (List.zipWith (fun a b => a * b) vec1 vec2).sum /
        (Real.sqrt ((vec1.map (fun a => a * a)).sum) *
          Real.sqrt ((vec2.map (fun b => b * b)).sum)) := rfl

/-- Swapping both the common index list (up to permutation) and the two
coordinate functions leaves the cosine unchanged. -/
theorem cosineSimilarity_maps_comm (A B : List String) (hperm : List.Perm A B)
    (f g : String → ℝ) :
    cosineSimilarity (A.map f) (A.map g) = cosineSimilarity (B.map g) (B.map f) := by
  rw [cosineSimilarity_eq, cosineSimilarity_eq]
  have hsum : ∀ h : String → ℝ, (A.map h).sum = (B.map h).sum :=
    fun h => (hperm.map h).sum_eq
  have hmm : ∀ (l : List String) (h : String → ℝ),
      ((l.map h).map (fun a => a * a)).sum = (l.map (fun t => h t * h t)).sum := by
    intro l h
    rw [List.map_map]
    rfl
  have hdot : (List.zipWith (fun a b => a * b) (A.map f) (A.map g)).sum =
      (List.zipWith (fun a b => a * b) (B.map g) (B.map f)).sum := by
    rw [zipWith_mul_map, zipWith_mul_map]
    have : B.map (fun t => g t * f t) = B.map (fun t => f t * g t) :=
      List.map_congr_left (fun t _ => mul_comm _ _)
    rw [this, hsum]
  rw [hmm A f, hmm A g, hmm B f, hmm B g, hsum (fun t => f t * f t), hsum (fun t => g t * g t)]
  rw [hdot]
  by_cases hz : Real.sqrt ((B.map (fun t => f t * f t)).sum) = 0 ∨
      Real.sqrt ((B.map (fun t => g t * g t)).sum) = 0
  · rw [if_pos hz, if_pos (Or.symm hz)]
  · rw [if_neg hz, if_neg (fun h => hz (Or.symm h))]
    rw [mul_comm]

/-- The IDF weights are symmetric in the two documents. -/
theorem idfOf_comm (tokens1 tokens2 : List String) (t : String) :
    idfOf tokens1 tokens2 t = idfOf tokens2 tokens1 t := by
  unfold idfOf
  rw [add_comm (if t ∈ tokens1 then (1 : ℝ) else 0) (if t ∈ tokens2 then (1 : ℝ) else 0)]

/-- The TF-IDF cosine overlap is symmetric. -/
theorem tfidfOverlap_comm (tokens1 tokens2 : List String) :
    tfidfOverlap tokens1 tokens2 = tfidfOverlap tokens2 tokens1 := by
  rw [tfidfOverlap_eq, tfidfOverlap_eq]
  have hperm : List.Perm (unionVocabulary tokens1 tokens2) (unionVocabulary tokens2 tokens1) := by
    refine (List.perm_ext_iff_of_nodup (List.nodup_dedup _) (List.nodup_dedup _)).2 ?_
    intro a
    simp only [unionVocabulary, List.mem_dedup, List.mem_append]
    exact or_comm
  have hempty : (unionVocabulary tokens1 tokens2).isEmpty =
      (unionVocabulary tokens2 tokens1).isEmpty := by
    cases h1 : unionVocabulary tokens1 tokens2 with
    | nil =>
      have hB : unionVocabulary tokens2 tokens1 = [] := by
        have hp := hperm
        rw [h1] at hp
        exact hp.symm.eq_nil
      rw [hB]
    | cons x xs =>
      cases h2 : unionVocabulary tokens2 tokens1 with
      | nil =>
        exfalso
        have hp := hperm
        rw [h1, h2] at hp
        exact absurd hp.eq_nil (List.cons_ne_nil x xs)
      | cons y ys => rfl
  have hmapswap : ∀ l : List String,
      l.map (fun t => (tokens2.count t : ℝ) * idfOf tokens2 tokens1 t) =
        l.map (fun t => (tokens2.count t : ℝ) * idfOf tokens1 tokens2 t) :=
    fun l => List.map_congr_left (fun t _ => by rw [idfOf_comm tokens2 tokens1 t])
  have hmapswap1 : ∀ l : List String,
      l.map (fun t => (tokens1.count t : ℝ) * idfOf tokens2 tokens1 t) =
        l.map (fun t => (tokens1.count t : ℝ) * idfOf tokens1 tokens2 t) :=
    fun l => List.map_congr_left (fun t _ => by rw [idfOf_comm tokens2 tokens1 t])
  rw [← hempty]
  by_cases hz : (unionVocabulary tokens1 tokens2).isEmpty
  · rw [if_pos hz, if_pos hz]
  · rw [if_neg hz, if_neg hz, hmapswap, hmapswap1]
    exact cosineSimilarity_maps_comm _ _ hperm _ _

/-- The per-`n` Jaccard contribution is symmetric. -/
theorem ngramJaccardAt_comm (cs1 cs2 : List Char) (n : ℕ) :
    ngramJaccardAt cs1 cs2 n = ngramJaccardAt cs2 cs1 n := by
  unfold ngramJaccardAt
  by_cases h : (charNgrams cs1 n).Nonempty ∧ (charNgrams cs2 n).Nonempty
  · rw [if_pos h, if_pos ⟨h.2, h.1⟩, Finset.inter_comm, Finset.union_comm]
  · rw [if_neg h, if_neg (fun h2 => h ⟨h2.2, h2.1⟩)]

/-- The n-gram similarity is symmetric. -/
theorem ngramSimilarity_comm (text1 text2 : String) :
    ngramSimilarity text1 text2 = ngramSimilarity text2 text1 := by
  unfold ngramSimilarity
  rw [ngramJaccardAt_comm (toLowerCl text1) (toLowerCl text2) 2,
    ngramJaccardAt_comm (toLowerCl text1) (toLowerCl text2) 3]

/-- The token-set Jaccard similarity is symmetric. -/
theorem jaccardSimilarity_comm (tokens1 tokens2 : List String) :
    jaccardSimilarity tokens1 tokens2 = jaccardSimilarity tokens2 tokens1 := by
  rw [jaccardSimilarity_eq, jaccardSimilarity_eq]
  by_cases h : tokens1.toFinset = ∅ ∧ tokens2.toFinset = ∅
  · rw [if_pos h, if_pos ⟨h.2, h.1⟩]
  · rw [if_neg h, if_neg (fun h2 => h ⟨h2.2, h2.1⟩), Finset.inter_comm, Finset.union_comm]

/-- Let-free unfolding of `computeHeuristicSimilarity`. -/
theorem computeHeuristicSimilarity_eq (text1 text2 : String) :
    computeHeuristicSimilarity text1 text2 =
      if (tokenizeMin 2 text1).isEmpty ∨ (tokenizeMin 2 text2).isEmpty then 0
      else (2/5) * tfidfOverlap (tokenizeMin 2 text1) (tokenizeMin 2 text2)
        + (7/20) * ((ngramSimilarity text1 text2 : ℚ) : ℝ)
        + (1/4) * ((jaccardSimilarity (tokenizeMin 2 text1) (tokenizeMin 2 text2) : ℚ) : ℝ) :=
  rfl

/-- C5 counterexample: the two-character text `ab` tokenises to the
non-empty token list `["ab"]`, yet its heuristic self-similarity is
33/40, not 1 — the 3-gram set of a 2-character text is empty, so the
n-gram component of the self-comparison is only 1/2. -/
theorem heuristic_similarity_self_counterexample :
    tokenizeMin 2 "ab" ≠ [] ∧ computeHeuristicSimilarity "ab" "ab" ≠ 1 := by
  constructor
  · decide
  · have htok : tokenizeMin 2 "ab" = ["ab"] := by decide
    rw [computeHeuristicSimilarity_eq, htok]
    rw [if_neg (by decide)]
    rw [tfidfOverlap_self ["ab"] (List.cons_ne_nil _ _)]
    rw [jaccardSimilarity_self ["ab"] (List.cons_ne_nil _ _)]
    have hng : ngramSimilarity "ab" "ab" = 1/2 := by
      unfold ngramSimilarity
      rw [ngramJaccardAt_self (toLowerCl "ab") 2 (by decide)]
      have h3 : ngramJaccardAt (toLowerCl "ab") (toLowerCl "ab") 3 = 0 := by
        rw [ngramJaccardAt, if_neg]
        intro hand
        have : charNgrams (toLowerCl "ab") 3 = ∅ := by decide
        rw [this] at hand
        exact Finset.not_nonempty_empty hand.1
      rw [h3]
      norm_num
    rw [hng]
    push_cast
    norm_num

/-- C5 (amended): heuristic-mode similarity satisfies `similarity(t, t) = 1`
for every text with a non-empty token set *and at least three characters*
(so that both the 2-gram and the 3-gram sets are non-empty), and
`similarity(a, b) = similarity(b, a)` for all texts. -/
theorem heuristic_similarity_reflexive_symmetric :
    (∀ t : String, tokenizeMin 2 t ≠ [] → 3 ≤ (toLowerCl t).length →
      computeHeuristicSimilarity t t = 1) ∧
    (∀ a b : String, computeHeuristicSimilarity a b = computeHeuristicSimilarity b a) := by
  constructor
  · intro t htok hlen
    have hne : (tokenizeMin 2 t).isEmpty = false := by
      cases h : tokenizeMin 2 t with
      | nil => exact absurd h htok
      | cons a l => rfl
    rw [computeHeuristicSimilarity_eq]
    rw [if_neg (by rw [hne]; simp)]
    rw [tfidfOverlap_self _ htok, jaccardSimilarity_self _ htok]
    have hng : ngramSimilarity t t = 1 := by
      unfold ngramSimilarity
      rw [ngramJaccardAt_self (toLowerCl t) 2 (by omega),
        ngramJaccardAt_self (toLowerCl t) 3 hlen]
      norm_num
    rw [hng]
    push_cast
    norm_num
  · intro a b
    rw [computeHeuristicSimilarity_eq, computeHeuristicSimilarity_eq]
    by_cases hz : (tokenizeMin 2 a).isEmpty ∨ (tokenizeMin 2 b).isEmpty
    · rw [if_pos hz, if_pos (Or.symm hz)]
    · rw [if_neg hz, if_neg (fun h => hz (Or.symm h))]
      rw [tfidfOverlap_comm, ngramSimilarity_comm, jaccardSimilarity_comm]

/-- Witness for C5 (amended): the three-character text `abc` has heuristic
self-similarity exactly 1, and a concrete symmetric pair. -/
theorem heuristic_similarity_reflexive_symmetric_witness :
    computeHeuristicSimilarity "abc" "abc" = 1 ∧
    computeHeuristicSimilarity "ab cd" "xy" = computeHeuristicSimilarity "xy" "ab cd" := by
  exact ⟨heuristic_similarity_reflexive_symmetric.1 "abc" (by decide) (by decide),
    heuristic_similarity_reflexive_symmetric.2 "ab cd" "xy"⟩
